import Mathlib

/-!
# rdigester: resumable digests (`RDigester.cpp`)

A shallow embedding of `src/rdigester/src/main/cpp/rdigester/RDigester.cpp`.

* Memory is modelled by lists of bytes.  A field of a context structure is modelled by its
  object representation, the `sizeof` many bytes that `memcpy` copies.
* A memory access outside the region it is given is undefined behaviour in C++; the
  embedding returns `none` for it.
* The OpenSSL primitives (`MD5_Init`, `MD5_Update`, `MD5_Final`, ...) are not part of the
  repository; they are the fields of `CryptoLib`, a parameter of every engine operation.
* In OpenSSL's `SHA512_CTX` the counters `Nl`, `Nh` are `SHA_LONG64`; the repository's
  specification describes them as 32-bit.  The embedding keeps their size in bytes as the
  parameter `w` (8 for OpenSSL, 4 for the specification's table).
-/

namespace Digest

/-! ## Bytes and memory primitives -/

/-- An `unsigned char`. -/
abbrev Byte := Fin 256

/-- An object of `n` bytes: its object representation. -/
abbrev Bytes (n : Nat) := { l : List Byte // l.length = n }

/-- The object of `n` bytes whose bytes are all zero. -/
def Bytes.zero (n : Nat) : Bytes n := ⟨List.replicate n 0, List.length_replicate n 0⟩

/-- C's `sizeof` of an object: `sizeof ctx->A`. -/
def Bytes.sizeof {n : Nat} (_b : Bytes n) : Nat := n

/-- The bytes of a field that lies at offset `off` of its object, after
`memset(object, 0, n)`: the bytes of the field below object offset `n` are zero, the others
are kept. -/
def Bytes.memset0 {k : Nat} (f : Bytes k) (off n : Nat) : Bytes k :=
  ⟨List.replicate (min (n - off) k) 0 ++ f.val.drop (n - off), by
    rw [List.length_append, List.length_replicate, List.length_drop, f.property]; omega⟩

/-- The first `k` bytes of an object of `n` bytes. -/
def Bytes.truncate {n : Nat} (b : Bytes n) (k : Nat) (h : k ≤ n) : Bytes k :=
  ⟨b.val.take k, by rw [List.length_take, b.property]; omega⟩

/-- Shift a byte in at the front of an object, dropping its last byte. -/
def Bytes.push {n : Nat} (b : Bytes n) (x : Byte) : Bytes n :=
  ⟨(x :: b.val).take n, by rw [List.length_take, List.length_cons, b.property]; omega⟩

/-- `sizeof(MD5_LONG)`: `MD5_LONG` is `unsigned int`. -/
@[simp] def sizeof_MD5_LONG : Nat := 4

/-- `sizeof(SHA_LONG)`: `SHA_LONG` is `unsigned int`. -/
@[simp] def sizeof_SHA_LONG : Nat := 4

/-- `sizeof(SHA_LONG64)`: `SHA_LONG64` is `unsigned long long`. -/
@[simp] def sizeof_SHA_LONG64 : Nat := 8

/-- `sizeof(unsigned char)`. -/
@[simp] def sizeof_uchar : Nat := 1

/-- OpenSSL's `MD5_LBLOCK`. -/
@[simp] def MD5_LBLOCK : Nat := 16

/-- OpenSSL's `SHA_LBLOCK`. -/
@[simp] def SHA_LBLOCK : Nat := 16

/-- OpenSSL's `SHA512_CBLOCK`. -/
@[simp] def SHA512_CBLOCK : Nat := 128

/-- OpenSSL's `MD5_DIGEST_LENGTH`. -/
@[simp] def MD5_DIGEST_LENGTH : Nat := 16

/-- OpenSSL's `SHA_DIGEST_LENGTH`. -/
@[simp] def SHA_DIGEST_LENGTH : Nat := 20

/-- OpenSSL's `SHA256_DIGEST_LENGTH`. -/
@[simp] def SHA256_DIGEST_LENGTH : Nat := 32

/-- OpenSSL's `SHA512_DIGEST_LENGTH`. -/
@[simp] def SHA512_DIGEST_LENGTH : Nat := 64

/-- The largest `int` (32 bits). -/
def INT_MAX : Int := 2147483647

/-- Conversion of an integer to `size_t` (64 bits): `return -1` in a function returning
`size_t` returns `size_t_of (-1)`. -/
def size_t_of (z : Int) : Nat := (z % 2 ^ 64).toNat

/-- The call `memcpy(&dst[i], src, n)`: the first `n` bytes of the object `src` are copied to
`dst` at offset `i`.  `none` when the copy leaves `dst` or `src`. -/
def memcpyTo (dst : List Byte) (i : Nat) (src : List Byte) (n : Nat) : Option (List Byte) :=
  if i + n ≤ dst.length ∧ n ≤ src.length then
    some (dst.take i ++ src.take n ++ dst.drop (i + n))
  else none

/-- The call `memcpy(&field, &src[i], n)`: `n` bytes of `src` from offset `i` on are copied
to the start of the object `field`.  `none` when the copy leaves `src` or `field`. -/
def memcpyFrom {k : Nat} (field : Bytes k) (src : List Byte) (i n : Nat) : Option (Bytes k) :=
  if h : n ≤ k ∧ i + n ≤ src.length then
    some ⟨(src.drop i).take n ++ field.val.drop n, by
      rw [List.length_append, List.length_take, List.length_drop, List.length_drop,
        field.property]; omega⟩
  else none

/-- The call `memset(dst, c, n)`.  `none` when it leaves `dst`. -/
def memset (dst : List Byte) (c : Byte) (n : Nat) : Option (List Byte) :=
  if n ≤ dst.length then some (List.replicate n c ++ dst.drop n) else none

/-! ## The context structures of OpenSSL -/

/-- OpenSSL's `MD5_CTX`: `MD5_LONG A, B, C, D; MD5_LONG Nl, Nh; MD5_LONG data[MD5_LBLOCK];
unsigned int num`. -/
structure MD5_CTX where
  A : Bytes 4
  B : Bytes 4
  C : Bytes 4
  D : Bytes 4
  Nl : Bytes 4
  Nh : Bytes 4
  data : Bytes 64
  num : Bytes 4
deriving DecidableEq, Repr

/-- OpenSSL's `SHA_CTX`: `SHA_LONG h0, h1, h2, h3, h4; SHA_LONG Nl, Nh;
SHA_LONG data[SHA_LBLOCK]; unsigned int num`. -/
structure SHA_CTX where
  h0 : Bytes 4
  h1 : Bytes 4
  h2 : Bytes 4
  h3 : Bytes 4
  h4 : Bytes 4
  Nl : Bytes 4
  Nh : Bytes 4
  data : Bytes 64
  num : Bytes 4
deriving DecidableEq, Repr

/-- OpenSSL's `SHA256_CTX`: `SHA_LONG h[8]; SHA_LONG Nl, Nh; SHA_LONG data[SHA_LBLOCK];
unsigned int num, md_len`. -/
structure SHA256_CTX where
  h : Bytes 32
  Nl : Bytes 4
  Nh : Bytes 4
  data : Bytes 64
  num : Bytes 4
  md_len : Bytes 4
deriving DecidableEq, Repr

/-- OpenSSL's `SHA512_CTX`: `SHA_LONG64 h[8]; Nl, Nh` of `w` bytes each;
`union { SHA_LONG64 d[SHA_LBLOCK]; unsigned char p[SHA512_CBLOCK]; } u;
unsigned int num, md_len`.  The two members of the union are one storage of 128 bytes,
the field `u`. -/
structure SHA512_CTX (w : Nat) where
  h : Bytes 64
  Nl : Bytes w
  Nh : Bytes w
  u : Bytes 128
  num : Bytes 4
  md_len : Bytes 4
deriving DecidableEq, Repr

/-- A value-initialised `MD5_CTX` (`new MD5_CTX()`). -/
def MD5_CTX.zero : MD5_CTX :=
  ⟨Bytes.zero 4, Bytes.zero 4, Bytes.zero 4, Bytes.zero 4, Bytes.zero 4, Bytes.zero 4,
   Bytes.zero 64, Bytes.zero 4⟩

/-- A value-initialised `SHA_CTX` (`new SHA_CTX()`). -/
def SHA_CTX.zero : SHA_CTX :=
  ⟨Bytes.zero 4, Bytes.zero 4, Bytes.zero 4, Bytes.zero 4, Bytes.zero 4, Bytes.zero 4,
   Bytes.zero 4, Bytes.zero 64, Bytes.zero 4⟩

/-- A value-initialised `SHA256_CTX` (`new SHA256_CTX()`). -/
def SHA256_CTX.zero : SHA256_CTX :=
  ⟨Bytes.zero 32, Bytes.zero 4, Bytes.zero 4, Bytes.zero 64, Bytes.zero 4, Bytes.zero 4⟩

/-- A value-initialised `SHA512_CTX` (`new SHA512_CTX()`). -/
def SHA512_CTX.zero (w : Nat) : SHA512_CTX w :=
  ⟨Bytes.zero 64, Bytes.zero w, Bytes.zero w, Bytes.zero 128, Bytes.zero 4, Bytes.zero 4⟩

/-- `sizeof(MD5_CTX)`: the eight fields of `MD5_CTX`, which need no padding. -/
def sizeof_MD5_CTX : Nat := 4 + 4 + 4 + 4 + 4 + 4 + sizeof_MD5_LONG * MD5_LBLOCK + 4

/-- `sizeof(SHA256_CTX)`: the six fields of `SHA256_CTX`, which need no padding. -/
def sizeof_SHA256_CTX : Nat := sizeof_SHA_LONG * 8 + 4 + 4 + sizeof_SHA_LONG * SHA_LBLOCK + 4 + 4

/-- `memset(ctx, 0, n)` on an `MD5_CTX`, field by field at the fields' offsets. -/
def MD5_CTX.memset0 (c : MD5_CTX) (n : Nat) : MD5_CTX :=
  { A := c.A.memset0 0 n, B := c.B.memset0 4 n, C := c.C.memset0 8 n, D := c.D.memset0 12 n,
    Nl := c.Nl.memset0 16 n, Nh := c.Nh.memset0 20 n, data := c.data.memset0 24 n,
    num := c.num.memset0 88 n }

/-- `memset(ctx, 0, n)` on a `SHA_CTX`, field by field at the fields' offsets. -/
def SHA_CTX.memset0 (c : SHA_CTX) (n : Nat) : SHA_CTX :=
  { h0 := c.h0.memset0 0 n, h1 := c.h1.memset0 4 n, h2 := c.h2.memset0 8 n,
    h3 := c.h3.memset0 12 n, h4 := c.h4.memset0 16 n, Nl := c.Nl.memset0 20 n,
    Nh := c.Nh.memset0 24 n, data := c.data.memset0 28 n, num := c.num.memset0 92 n }

/-- `memset(ctx, 0, n)` on a `SHA256_CTX`, field by field at the fields' offsets. -/
def SHA256_CTX.memset0 (c : SHA256_CTX) (n : Nat) : SHA256_CTX :=
  { h := c.h.memset0 0 n, Nl := c.Nl.memset0 32 n, Nh := c.Nh.memset0 36 n,
    data := c.data.memset0 40 n, num := c.num.memset0 104 n, md_len := c.md_len.memset0 108 n }

/-- `memset(ctx, 0, n)` on a `SHA512_CTX`, field by field at the fields' offsets. -/
def SHA512_CTX.memset0 {w : Nat} (c : SHA512_CTX w) (n : Nat) : SHA512_CTX w :=
  { h := c.h.memset0 0 n, Nl := c.Nl.memset0 64 n, Nh := c.Nh.memset0 (64 + w) n,
    u := c.u.memset0 (64 + w + w) n, num := c.num.memset0 (64 + w + w + 128) n,
    md_len := c.md_len.memset0 (64 + w + w + 128 + 4) n }

/-! ## The per-algorithm serializers and deserializers -/

/-- The C++ `RDigester::serialize(unsigned char *dst, size_t dstSize, const MD5_CTX *ctx)`:
the buffer after the call and the returned `size_t`. -/
def serializeMd5Ctx (dst : List Byte) (dstSize : Nat) (ctx : MD5_CTX) :
    Option (List Byte × Nat) :=
  if dstSize < ctx.A.sizeof + ctx.B.sizeof + ctx.C.sizeof + ctx.D.sizeof + ctx.Nl.sizeof +
      ctx.Nh.sizeof + sizeof_MD5_LONG * MD5_LBLOCK + ctx.num.sizeof then
    some (dst, size_t_of (-1))
  else do
    let i := 0
    let dst ← memcpyTo dst i ctx.A.val ctx.A.sizeof
    let i := i + ctx.A.sizeof
    let dst ← memcpyTo dst i ctx.B.val ctx.B.sizeof
    let i := i + ctx.B.sizeof
    let dst ← memcpyTo dst i ctx.C.val ctx.C.sizeof
    let i := i + ctx.C.sizeof
    let dst ← memcpyTo dst i ctx.D.val ctx.D.sizeof
    let i := i + ctx.D.sizeof
    let dst ← memcpyTo dst i ctx.Nl.val ctx.Nl.sizeof
    let i := i + ctx.Nl.sizeof
    let dst ← memcpyTo dst i ctx.Nh.val ctx.Nh.sizeof
    let i := i + ctx.Nh.sizeof
    let dst ← memcpyTo dst i ctx.data.val (sizeof_MD5_LONG * MD5_LBLOCK)
    let i := i + sizeof_MD5_LONG * MD5_LBLOCK
    let dst ← memcpyTo dst i ctx.num.val ctx.num.sizeof
    let i := i + ctx.num.sizeof
    some (dst, i)

/-- The C++ `RDigester::deserializeMd5Ctx(unsigned char *src)`. -/
def deserializeMd5Ctx (src : List Byte) : Option MD5_CTX := do
  let i := 0
  let ctx := MD5_CTX.zero
  let ctx := { ctx with A := ← memcpyFrom ctx.A src i ctx.A.sizeof }
  let i := i + ctx.A.sizeof
  let ctx := { ctx with B := ← memcpyFrom ctx.B src i ctx.B.sizeof }
  let i := i + ctx.B.sizeof
  let ctx := { ctx with C := ← memcpyFrom ctx.C src i ctx.C.sizeof }
  let i := i + ctx.C.sizeof
  let ctx := { ctx with D := ← memcpyFrom ctx.D src i ctx.D.sizeof }
  let i := i + ctx.D.sizeof
  let ctx := { ctx with Nl := ← memcpyFrom ctx.Nl src i ctx.Nl.sizeof }
  let i := i + ctx.Nl.sizeof
  let ctx := { ctx with Nh := ← memcpyFrom ctx.Nh src i ctx.Nh.sizeof }
  let i := i + ctx.Nh.sizeof
  let ctx := { ctx with data := ← memcpyFrom ctx.data src i (sizeof_MD5_LONG * MD5_LBLOCK) }
  let i := i + sizeof_MD5_LONG * MD5_LBLOCK
  let ctx := { ctx with num := ← memcpyFrom ctx.num src i ctx.num.sizeof }
  let _i := i + ctx.num.sizeof
  some ctx

/-- The C++ `RDigester::serialize(unsigned char *dst, size_t dstSize, const SHA256_CTX *ctx)`:
the buffer after the call and the returned `size_t`. -/
def serializeSha256Ctx (dst : List Byte) (dstSize : Nat) (ctx : SHA256_CTX) :
    Option (List Byte × Nat) :=
  if dstSize < sizeof_SHA_LONG * 8 + ctx.Nl.sizeof + ctx.Nh.sizeof +
      sizeof_SHA_LONG * SHA_LBLOCK + ctx.num.sizeof + ctx.md_len.sizeof then
    some (dst, size_t_of (-1))
  else do
    let i := 0
    let dst ← memcpyTo dst i ctx.h.val (sizeof_SHA_LONG * 8)
    let i := i + sizeof_SHA_LONG * 8
    let dst ← memcpyTo dst i ctx.Nl.val ctx.Nl.sizeof
    let i := i + ctx.Nl.sizeof
    let dst ← memcpyTo dst i ctx.Nh.val ctx.Nh.sizeof
    let i := i + ctx.Nh.sizeof
    let dst ← memcpyTo dst i ctx.data.val (sizeof_SHA_LONG * SHA_LBLOCK)
    let i := i + sizeof_SHA_LONG * SHA_LBLOCK
    let dst ← memcpyTo dst i ctx.num.val ctx.num.sizeof
    let i := i + ctx.num.sizeof
    let dst ← memcpyTo dst i ctx.md_len.val ctx.md_len.sizeof
    let i := i + ctx.md_len.sizeof
    some (dst, i)

/-- The C++ `RDigester::deserializeSha256Ctx(unsigned char *src)`; the `memset` after
`new SHA256_CTX()` zeroes the whole object again. -/
def deserializeSha256Ctx (src : List Byte) : Option SHA256_CTX := do
  let i := 0
  let ctx := SHA256_CTX.zero
  let ctx := ctx.memset0 sizeof_SHA256_CTX
  let ctx := { ctx with h := ← memcpyFrom ctx.h src i (sizeof_SHA_LONG * 8) }
  let i := i + sizeof_SHA_LONG * 8
  let ctx := { ctx with Nl := ← memcpyFrom ctx.Nl src i ctx.Nl.sizeof }
  let i := i + ctx.Nl.sizeof
  let ctx := { ctx with Nh := ← memcpyFrom ctx.Nh src i ctx.Nh.sizeof }
  let i := i + ctx.Nh.sizeof
  let ctx := { ctx with data := ← memcpyFrom ctx.data src i (sizeof_SHA_LONG * SHA_LBLOCK) }
  let i := i + sizeof_SHA_LONG * SHA_LBLOCK
  let ctx := { ctx with num := ← memcpyFrom ctx.num src i ctx.num.sizeof }
  let i := i + ctx.num.sizeof
  let ctx := { ctx with md_len := ← memcpyFrom ctx.md_len src i ctx.md_len.sizeof }
  let _i := i + ctx.md_len.sizeof
  some ctx

/-- The C++ `RDigester::serialize(unsigned char *dst, size_t dstSize, const SHA512_CTX *ctx)`:
the buffer after the call and the returned `size_t`.  `&ctx->u.d` and `&ctx->u.p` are both
the address of the union `u`. -/
def serializeSha512Ctx {w : Nat} (dst : List Byte) (dstSize : Nat) (ctx : SHA512_CTX w) :
    Option (List Byte × Nat) :=
  if dstSize < sizeof_SHA_LONG64 * 8 + ctx.Nl.sizeof + ctx.Nh.sizeof +
      sizeof_SHA_LONG64 * SHA_LBLOCK + sizeof_uchar * SHA512_CBLOCK + ctx.num.sizeof +
      ctx.md_len.sizeof then
    some (dst, size_t_of (-1))
  else do
    let i := 0
    let dst ← memcpyTo dst i ctx.h.val (sizeof_SHA_LONG64 * 8)
    let i := i + sizeof_SHA_LONG64 * 8
    let dst ← memcpyTo dst i ctx.Nl.val ctx.Nl.sizeof
    let i := i + ctx.Nl.sizeof
    let dst ← memcpyTo dst i ctx.Nh.val ctx.Nh.sizeof
    let i := i + ctx.Nh.sizeof
    let dst ← memcpyTo dst i ctx.u.val (sizeof_SHA_LONG64 * SHA_LBLOCK)
    let i := i + sizeof_SHA_LONG64 * SHA_LBLOCK
    let dst ← memcpyTo dst i ctx.u.val (sizeof_uchar * SHA512_CBLOCK)
    let i := i + sizeof_uchar * SHA512_CBLOCK
    let dst ← memcpyTo dst i ctx.num.val ctx.num.sizeof
    let i := i + ctx.num.sizeof
    let dst ← memcpyTo dst i ctx.md_len.val ctx.md_len.sizeof
    let i := i + ctx.md_len.sizeof
    some (dst, i)

/-- The C++ `RDigester::deserializeSha512Ctx(unsigned char *src)`.  Both copies into the
union write its one storage `u`. -/
def deserializeSha512Ctx (w : Nat) (src : List Byte) : Option (SHA512_CTX w) := do
  let i := 0
  let ctx := SHA512_CTX.zero w
  let ctx := { ctx with h := ← memcpyFrom ctx.h src i (sizeof_SHA_LONG64 * 8) }
  let i := i + ctx.h.sizeof
  let ctx := { ctx with Nl := ← memcpyFrom ctx.Nl src i ctx.Nl.sizeof }
  let i := i + ctx.Nl.sizeof
  let ctx := { ctx with Nh := ← memcpyFrom ctx.Nh src i ctx.Nh.sizeof }
  let i := i + ctx.Nh.sizeof
  let ctx := { ctx with u := ← memcpyFrom ctx.u src i (sizeof_SHA_LONG64 * SHA_LBLOCK) }
  let i := i + sizeof_SHA_LONG64 * SHA_LBLOCK
  let ctx := { ctx with u := ← memcpyFrom ctx.u src i (sizeof_uchar * SHA512_CBLOCK) }
  let i := i + sizeof_uchar * SHA512_CBLOCK
  let ctx := { ctx with num := ← memcpyFrom ctx.num src i ctx.num.sizeof }
  let i := i + ctx.num.sizeof
  let ctx := { ctx with md_len := ← memcpyFrom ctx.md_len src i ctx.md_len.sizeof }
  let _i := i + ctx.md_len.sizeof
  some ctx

/-- The C++ `RDigester::serialize(unsigned char *dst, size_t dstSize, const SHA_CTX *ctx)`:
the buffer after the call and the returned `size_t`. -/
def serializeSha1Ctx (dst : List Byte) (dstSize : Nat) (ctx : SHA_CTX) :
    Option (List Byte × Nat) :=
  if dstSize < ctx.h0.sizeof + ctx.h1.sizeof + ctx.h2.sizeof + ctx.h3.sizeof + ctx.h4.sizeof +
      ctx.Nl.sizeof + ctx.Nh.sizeof + sizeof_SHA_LONG * SHA_LBLOCK + ctx.num.sizeof then
    some (dst, size_t_of (-1))
  else do
    let i := 0
    let dst ← memcpyTo dst i ctx.h0.val ctx.h0.sizeof
    let i := i + ctx.h0.sizeof
    let dst ← memcpyTo dst i ctx.h1.val ctx.h1.sizeof
    let i := i + ctx.h1.sizeof
    let dst ← memcpyTo dst i ctx.h2.val ctx.h2.sizeof
    let i := i + ctx.h2.sizeof
    let dst ← memcpyTo dst i ctx.h3.val ctx.h3.sizeof
    let i := i + ctx.h3.sizeof
    let dst ← memcpyTo dst i ctx.h4.val ctx.h4.sizeof
    let i := i + ctx.h4.sizeof
    let dst ← memcpyTo dst i ctx.Nl.val ctx.Nl.sizeof
    let i := i + ctx.Nl.sizeof
    let dst ← memcpyTo dst i ctx.Nh.val ctx.Nh.sizeof
    let i := i + ctx.Nh.sizeof
    let dst ← memcpyTo dst i ctx.data.val (sizeof_SHA_LONG * SHA_LBLOCK)
    let i := i + sizeof_SHA_LONG * SHA_LBLOCK
    let dst ← memcpyTo dst i ctx.num.val ctx.num.sizeof
    let i := i + ctx.num.sizeof
    some (dst, i)

/-- The C++ `RDigester::deserializeSha1Ctx(unsigned char *src)`. -/
def deserializeSha1Ctx (src : List Byte) : Option SHA_CTX := do
  let i := 0
  let ctx := SHA_CTX.zero
  let ctx := { ctx with h0 := ← memcpyFrom ctx.h0 src i ctx.h0.sizeof }
  let i := i + ctx.h0.sizeof
  let ctx := { ctx with h1 := ← memcpyFrom ctx.h1 src i ctx.h1.sizeof }
  let i := i + ctx.h1.sizeof
  let ctx := { ctx with h2 := ← memcpyFrom ctx.h2 src i ctx.h2.sizeof }
  let i := i + ctx.h2.sizeof
  let ctx := { ctx with h3 := ← memcpyFrom ctx.h3 src i ctx.h3.sizeof }
  let i := i + ctx.h3.sizeof
  let ctx := { ctx with h4 := ← memcpyFrom ctx.h4 src i ctx.h4.sizeof }
  let i := i + ctx.h4.sizeof
  let ctx := { ctx with Nl := ← memcpyFrom ctx.Nl src i ctx.Nl.sizeof }
  let i := i + ctx.Nl.sizeof
  let ctx := { ctx with Nh := ← memcpyFrom ctx.Nh src i ctx.Nh.sizeof }
  let i := i + ctx.Nh.sizeof
  let ctx := { ctx with data := ← memcpyFrom ctx.data src i (sizeof_SHA_LONG * SHA_LBLOCK) }
  let i := i + sizeof_SHA_LONG * SHA_LBLOCK
  let ctx := { ctx with num := ← memcpyFrom ctx.num src i ctx.num.sizeof }
  let _i := i + ctx.num.sizeof
  some ctx

/-! ## Hexadecimal rendering -/

/-- The table `hexmap` of `RDigester::toHex`. -/
def hexmap : List Char := "0123456789abcdef".toList

/-- One iteration of the loop of `RDigester::toHex`:
`s[2 * i] = hexmap[(data[i] & 0xF0) >> 4]; s[2 * i + 1] = hexmap[data[i] & 0x0F];`.
`none` when `data[i]` or the table is read out of bounds. -/
def toHexStep (data : List Byte) (s : List Char) (i : Nat) : Option (List Char) := do
  let b ← data[i]?
  let hi ← hexmap[(b.val &&& 0xF0) >>> 4]?
  let lo ← hexmap[b.val &&& 0x0F]?
  some ((s.set (2 * i) hi).set (2 * i + 1) lo)

/-- The C++ `RDigester::toHex(unsigned char *data, int len)`.  `none` when `len * 2` is
not a valid length: it overflows `int` (undefined behaviour) or is negative
(`std::string(len * 2, ' ')` throws `std::length_error`). -/
def toHex (data : List Byte) (len : Int) : Option (List Char) :=
  if len < 0 ∨ INT_MAX < len * 2 then none
  else
    let s := List.replicate (len.toNat * 2) ' '
    (List.range len.toNat).foldlM (toHexStep data) s

/-- The lowercase hexadecimal rendering of a byte sequence, two characters a byte:
the digit of the high nibble, then the digit of the low nibble. -/
def hexString : List Byte → List Char
  | [] => []
  | b :: bs => hexmap.getD (b.val / 16) ' ' :: hexmap.getD (b.val % 16) ' ' :: hexString bs

/-- The value of a lowercase hexadecimal digit. -/
def hexValue (c : Char) : Option Nat :=
  if '0' ≤ c ∧ c ≤ '9' then some (c.toNat - '0'.toNat)
  else if 'a' ≤ c ∧ c ≤ 'f' then some (c.toNat - 'a'.toNat + 10)
  else none

/-- Decoding of a string as base-16 pairs. -/
def unhex : List Char → Option (List Byte)
  | [] => some []
  | [_] => none
  | hi :: lo :: cs => do
    let h ← hexValue hi
    let l ← hexValue lo
    let bs ← unhex cs
    some (Fin.ofNat (16 * h + l) :: bs)

/-! ## The engine -/

/-- The enumeration `ChecksumAlg`: the four enumerators that `RDigester.cpp` names, and
`Other` for a value that takes the `default:` branch of its switches. -/
inductive ChecksumAlg where
  | Md5
  | Sha1
  | Sha256
  | Sha512
  | Other
deriving DecidableEq, Repr

/-- What `digestCtx` points to in an engine whose tag is `alg`: the context structure the
switches cast it to, and nothing (`nullptr`) for a tag outside the four. -/
@[reducible] def CtxOf (w : Nat) : ChecksumAlg → Type
  | .Md5 => MD5_CTX
  | .Sha1 => SHA_CTX
  | .Sha256 => SHA256_CTX
  | .Sha512 => SHA512_CTX w
  | .Other => Unit

/-- The primitives of the cryptographic library (OpenSSL) that the engine calls.  An
`Init` takes the memory it initialises; an `Update` takes the `len` bytes `data` points to;
a `Final` returns the content of the digest buffer and the context it leaves behind. -/
structure CryptoLib (w : Nat) where
  MD5_Init : MD5_CTX → MD5_CTX
  MD5_Update : MD5_CTX → List Byte → MD5_CTX
  MD5_Final : MD5_CTX → Bytes MD5_DIGEST_LENGTH × MD5_CTX
  SHA1_Init : SHA_CTX → SHA_CTX
  SHA1_Update : SHA_CTX → List Byte → SHA_CTX
  SHA1_Final : SHA_CTX → Bytes SHA_DIGEST_LENGTH × SHA_CTX
  SHA256_Init : SHA256_CTX → SHA256_CTX
  SHA256_Update : SHA256_CTX → List Byte → SHA256_CTX
  SHA256_Final : SHA256_CTX → Bytes SHA256_DIGEST_LENGTH × SHA256_CTX
  SHA512_Init : SHA512_CTX w → SHA512_CTX w
  SHA512_Update : SHA512_CTX w → List Byte → SHA512_CTX w
  SHA512_Final : SHA512_CTX w → Bytes SHA512_DIGEST_LENGTH × SHA512_CTX w

/-- The members of the class `RDigester`: the tag `alg` and the context `digestCtx`
points to. -/
structure RDigester (w : Nat) where
  alg : ChecksumAlg
  digestCtx : CtxOf w alg

/-- The C++ constructor `RDigester::RDigester(ChecksumAlg a)`.  `mem` is the indeterminate
content of the object that `new` allocates; every branch zeroes `sizeof(MD5_CTX)` bytes of
it and calls the algorithm's `Init`. -/
def RDigester.new {w : Nat} (lib : CryptoLib w) (a : ChecksumAlg) (mem : CtxOf w a) :
    RDigester w :=
  match a, mem with
  | .Md5, mem => ⟨.Md5, lib.MD5_Init (MD5_CTX.memset0 mem sizeof_MD5_CTX)⟩
  | .Sha1, mem => ⟨.Sha1, lib.SHA1_Init (SHA_CTX.memset0 mem sizeof_MD5_CTX)⟩
  | .Sha256, mem => ⟨.Sha256, lib.SHA256_Init (SHA256_CTX.memset0 mem sizeof_MD5_CTX)⟩
  | .Sha512, mem => ⟨.Sha512, lib.SHA512_Init (SHA512_CTX.memset0 mem sizeof_MD5_CTX)⟩
  | .Other, _ => ⟨.Other, ()⟩

/-- The C++ `RDigester::setCtx(unsigned char *ctxSerialized)` on an engine whose tag is
`alg`: the old context is freed and the deserialized one installed. -/
def RDigester.setCtx {w : Nat} (alg : ChecksumAlg) (ctxSerialized : List Byte) :
    Option (RDigester w) :=
  match alg with
  | .Md5 => do
    let ctx ← deserializeMd5Ctx ctxSerialized
    some ⟨.Md5, ctx⟩
  | .Sha1 => do
    let ctx ← deserializeSha1Ctx ctxSerialized
    some ⟨.Sha1, ctx⟩
  | .Sha256 => do
    let ctx ← deserializeSha256Ctx ctxSerialized
    some ⟨.Sha256, ctx⟩
  | .Sha512 => do
    let ctx ← deserializeSha512Ctx w ctxSerialized
    some ⟨.Sha512, ctx⟩
  | .Other => some ⟨.Other, ()⟩

/-- The C++ constructor `RDigester::RDigester(ChecksumAlg a, unsigned char *ctxSerialized)`. -/
def RDigester.newSerialized {w : Nat} (a : ChecksumAlg) (ctxSerialized : List Byte) :
    Option (RDigester w) :=
  RDigester.setCtx a ctxSerialized

/-- The C++ `RDigester::serialize(unsigned char *dst, size_t dstSize)`: the engine, the
buffer and the returned `size_t` after the call. -/
def RDigester.serialize {w : Nat} (self : RDigester w) (dst : List Byte) (dstSize : Nat) :
    Option (RDigester w × List Byte × Nat) := do
  let dst ← memset dst 0 (sizeof_uchar * dstSize)
  match self with
  | ⟨.Md5, ctx⟩ => do
    let r ← serializeMd5Ctx dst dstSize ctx
    some (self, r.1, r.2)
  | ⟨.Sha1, ctx⟩ => do
    let r ← serializeSha1Ctx dst dstSize ctx
    some (self, r.1, r.2)
  | ⟨.Sha256, ctx⟩ => do
    let r ← serializeSha256Ctx dst dstSize ctx
    some (self, r.1, r.2)
  | ⟨.Sha512, ctx⟩ => do
    let r ← serializeSha512Ctx dst dstSize ctx
    some (self, r.1, r.2)
  | ⟨.Other, _⟩ => some (self, dst, 0)

/-- The C++ `RDigester::update(const void *data, size_t len)`; `data` is the `len` bytes. -/
def RDigester.update {w : Nat} (lib : CryptoLib w) (self : RDigester w) (data : List Byte) :
    RDigester w :=
  match self with
  | ⟨.Md5, ctx⟩ => ⟨.Md5, lib.MD5_Update ctx data⟩
  | ⟨.Sha1, ctx⟩ => ⟨.Sha1, lib.SHA1_Update ctx data⟩
  | ⟨.Sha256, ctx⟩ => ⟨.Sha256, lib.SHA256_Update ctx data⟩
  | ⟨.Sha512, ctx⟩ => ⟨.Sha512, lib.SHA512_Update ctx data⟩
  | ⟨.Other, _⟩ => self

/-- The C++ `RDigester::finalChecksumHex()`: the returned string and the engine after the
call. -/
def RDigester.finalChecksumHex {w : Nat} (lib : CryptoLib w) (self : RDigester w) :
    Option (List Char × RDigester w) :=
  match self with
  | ⟨.Md5, ctx⟩ => do
    let r := lib.MD5_Final ctx
    let rv ← toHex r.1.val (MD5_DIGEST_LENGTH : Nat)
    some (rv, ⟨.Md5, r.2⟩)
  | ⟨.Sha1, ctx⟩ => do
    let r := lib.SHA1_Final ctx
    let rv ← toHex r.1.val (SHA_DIGEST_LENGTH : Nat)
    some (rv, ⟨.Sha1, r.2⟩)
  | ⟨.Sha256, ctx⟩ => do
    let r := lib.SHA256_Final ctx
    let rv ← toHex r.1.val (SHA256_DIGEST_LENGTH : Nat)
    some (rv, ⟨.Sha256, r.2⟩)
  | ⟨.Sha512, ctx⟩ => do
    let r := lib.SHA512_Final ctx
    let rv ← toHex r.1.val (SHA512_DIGEST_LENGTH : Nat)
    some (rv, ⟨.Sha512, r.2⟩)
  | ⟨.Other, _⟩ => some ([], self)

/-- The digest the library's `Final` leaves in the buffer `hash` of `finalChecksumHex`. -/
def RDigester.digest {w : Nat} (lib : CryptoLib w) (self : RDigester w) : List Byte :=
  match self with
  | ⟨.Md5, ctx⟩ => (lib.MD5_Final ctx).1.val
  | ⟨.Sha1, ctx⟩ => (lib.SHA1_Final ctx).1.val
  | ⟨.Sha256, ctx⟩ => (lib.SHA256_Final ctx).1.val
  | ⟨.Sha512, ctx⟩ => (lib.SHA512_Final ctx).1.val
  | ⟨.Other, _⟩ => []

/-- The size the capacity check of the algorithm's serializer compares `dstSize` with. -/
def requiredSize (w : Nat) : ChecksumAlg → Nat
  | .Md5 => 92
  | .Sha1 => 96
  | .Sha256 => 112
  | .Sha512 => 328 + 2 * w
  | .Other => 0

/-- A call of one of the two operations that may precede `finalChecksumHex`. -/
inductive Call where
  | update (data : List Byte)
  | serialize (dst : List Byte) (dstSize : Nat)

/-- The engine after one call. -/
def runCall {w : Nat} (lib : CryptoLib w) (e : RDigester w) : Call → Option (RDigester w)
  | .update data => some (e.update lib data)
  | .serialize dst dstSize => (e.serialize dst dstSize).map Prod.fst

/-- The engine after a sequence of calls, in order. -/
def runCalls {w : Nat} (lib : CryptoLib w) (e : RDigester w) (calls : List Call) :
    Option (RDigester w) :=
  calls.foldlM (runCall lib) e

/-- The data of the `update` calls of a sequence of calls, in order. -/
def updatesOf : List Call → List (List Byte)
  | [] => []
  | .update data :: cs => data :: updatesOf cs
  | .serialize _ _ :: cs => updatesOf cs

/-- A `serialize` call is within its buffer when the capacity it passes is not larger than
the buffer. -/
def Call.inBounds : Call → Prop
  | .update _ => True
  | .serialize dst dstSize => dstSize ≤ dst.length

instance (c : Call) : Decidable c.inBounds := by
  cases c <;> (unfold Call.inBounds; infer_instance)

/-- A small library with the shape of the primitives, used to instantiate the theorems
that assume a contract of the library: `Init` clears the context, `Update` shifts the data
byte by byte into the block buffer, `Final` returns the head of the block buffer. -/
def toyLib (w : Nat) : CryptoLib w where
  MD5_Init _ := MD5_CTX.zero
  MD5_Update c data := data.foldl (fun c b => { c with data := c.data.push b }) c
  MD5_Final c := (c.data.truncate 16 (by decide), MD5_CTX.zero)
  SHA1_Init _ := SHA_CTX.zero
  SHA1_Update c data := data.foldl (fun c b => { c with data := c.data.push b }) c
  SHA1_Final c := (c.data.truncate 20 (by decide), SHA_CTX.zero)
  SHA256_Init _ := SHA256_CTX.zero
  SHA256_Update c data := data.foldl (fun c b => { c with data := c.data.push b }) c
  SHA256_Final c := (c.data.truncate 32 (by decide), SHA256_CTX.zero)
  SHA512_Init _ := SHA512_CTX.zero w
  SHA512_Update c data := data.foldl (fun c b => { c with u := c.u.push b }) c
  SHA512_Final c := (c.u.truncate 64 (by decide), SHA512_CTX.zero w)

/-- A lowercase hexadecimal digit: one of `0`-`9`, `a`-`f`. -/
def isLowerHex (c : Char) : Prop := ('0' ≤ c ∧ c ≤ '9') ∨ ('a' ≤ c ∧ c ≤ 'f')

instance (c : Char) : Decidable (isLowerHex c) := by
  unfold isLowerHex; infer_instance

/-- The length in bytes of the digest of an algorithm. -/
def digestLength : ChecksumAlg → Nat
  | .Md5 => MD5_DIGEST_LENGTH
  | .Sha1 => SHA_DIGEST_LENGTH
  | .Sha256 => SHA256_DIGEST_LENGTH
  | .Sha512 => SHA512_DIGEST_LENGTH
  | .Other => 0

/-- The wire image of an `MD5_CTX`: its fields one after the other. -/
def MD5_CTX.bytes (c : MD5_CTX) : List Byte :=
  c.A.val ++ (c.B.val ++ (c.C.val ++ (c.D.val ++ (c.Nl.val ++ (c.Nh.val ++
    (c.data.val ++ c.num.val))))))

/-- The wire image of a `SHA_CTX`: its fields one after the other. -/
def SHA_CTX.bytes (c : SHA_CTX) : List Byte :=
  c.h0.val ++ (c.h1.val ++ (c.h2.val ++ (c.h3.val ++ (c.h4.val ++ (c.Nl.val ++ (c.Nh.val ++
    (c.data.val ++ c.num.val)))))))

/-- The wire image of a `SHA256_CTX`: its fields one after the other. -/
def SHA256_CTX.bytes (c : SHA256_CTX) : List Byte :=
  c.h.val ++ (c.Nl.val ++ (c.Nh.val ++ (c.data.val ++ (c.num.val ++ c.md_len.val))))

/-- The wire image of a `SHA512_CTX`: its fields one after the other, the union `u` twice
(once for each of its members). -/
def SHA512_CTX.bytes {w : Nat} (c : SHA512_CTX w) : List Byte :=
  c.h.val ++ (c.Nl.val ++ (c.Nh.val ++ (c.u.val ++ (c.u.val ++ (c.num.val ++ c.md_len.val)))))

/-- The wire image of the state of an engine; empty when it has none. -/
def RDigester.stateBytes {w : Nat} (self : RDigester w) : List Byte :=
  match self with
  | ⟨.Md5, ctx⟩ => MD5_CTX.bytes ctx
  | ⟨.Sha1, ctx⟩ => SHA_CTX.bytes ctx
  | ⟨.Sha256, ctx⟩ => SHA256_CTX.bytes ctx
  | ⟨.Sha512, ctx⟩ => SHA512_CTX.bytes ctx
  | ⟨.Other, _⟩ => []

/-- A context of the small library after three bytes, for concrete instances. -/
def md5Sample : MD5_CTX := (toyLib 8).MD5_Update MD5_CTX.zero [1, 2, 3]

/-- A context of the small library after three bytes, for concrete instances. -/
def sha1Sample : SHA_CTX := (toyLib 8).SHA1_Update SHA_CTX.zero [4, 5, 6]

/-- A context of the small library after three bytes, for concrete instances. -/
def sha256Sample : SHA256_CTX := (toyLib 8).SHA256_Update SHA256_CTX.zero [7, 8, 9]

/-- A context of the small library after three bytes, for concrete instances. -/
def sha512Sample : SHA512_CTX 8 := (toyLib 8).SHA512_Update (SHA512_CTX.zero 8) [10, 11, 12]

/-- The object of `n` bytes whose bytes all are `b`. -/
def Bytes.fill (n : Nat) (b : Byte) : Bytes n := ⟨List.replicate n b, List.length_replicate n b⟩

/-- An `MD5_CTX` whose bytes all are `b`: a content freshly allocated memory may have. -/
def MD5_CTX.fill (b : Byte) : MD5_CTX :=
  ⟨Bytes.fill 4 b, Bytes.fill 4 b, Bytes.fill 4 b, Bytes.fill 4 b, Bytes.fill 4 b,
   Bytes.fill 4 b, Bytes.fill 64 b, Bytes.fill 4 b⟩

/-- A `SHA_CTX` whose bytes all are `b`: a content freshly allocated memory may have. -/
def SHA_CTX.fill (b : Byte) : SHA_CTX :=
  ⟨Bytes.fill 4 b, Bytes.fill 4 b, Bytes.fill 4 b, Bytes.fill 4 b, Bytes.fill 4 b,
   Bytes.fill 4 b, Bytes.fill 4 b, Bytes.fill 64 b, Bytes.fill 4 b⟩

/-- A `SHA256_CTX` whose bytes all are `b`: a content freshly allocated memory may have. -/
def SHA256_CTX.fill (b : Byte) : SHA256_CTX :=
  ⟨Bytes.fill 32 b, Bytes.fill 4 b, Bytes.fill 4 b, Bytes.fill 64 b, Bytes.fill 4 b,
   Bytes.fill 4 b⟩

/-- A `SHA512_CTX` whose bytes all are `b`: a content freshly allocated memory may have. -/
def SHA512_CTX.fill (w : Nat) (b : Byte) : SHA512_CTX w :=
  ⟨Bytes.fill 64 b, Bytes.fill w b, Bytes.fill w b, Bytes.fill 128 b, Bytes.fill 4 b,
   Bytes.fill 4 b⟩

/-- The small library with a `SHA512_Init` that assigns every field but the block buffer
`u`, which it leaves as it finds it (OpenSSL's `SHA512_Init` assigns `h`, `Nl`, `Nh`, `num`
and `md_len` only). -/
def keepLib (w : Nat) : CryptoLib w :=
  { toyLib w with SHA512_Init := fun c => { SHA512_CTX.zero w with u := c.u } }

/-! ## Memory primitives: basic facts -/

@[simp] theorem Bytes.length_val {n : Nat} (b : Bytes n) : b.val.length = n := b.property

@[simp] theorem Bytes.sizeof_eq {n : Nat} (b : Bytes n) : b.sizeof = n := rfl

theorem size_t_of_neg_one : size_t_of (-1) = 18446744073709551615 := by decide

theorem memcpyTo_zero (l x : List Byte) (n : Nat) (hx : x.length = n) (h : n ≤ l.length) :
    memcpyTo l 0 x n = some (x ++ l.drop n) := by
  unfold memcpyTo
  rw [if_pos ⟨by omega, by omega⟩]
  simp [← hx]

theorem memcpyTo_skip (a l src : List Byte) (i n : Nat) (h : a.length ≤ i) :
    memcpyTo (a ++ l) i src n = (memcpyTo l (i - a.length) src n).map (a ++ ·) := by
  unfold memcpyTo
  have e1 : (i + n ≤ (a ++ l).length ∧ n ≤ src.length) ↔
      (i - a.length + n ≤ l.length ∧ n ≤ src.length) := by
    rw [List.length_append]; omega
  by_cases hc : i - a.length + n ≤ l.length ∧ n ≤ src.length
  · rw [if_pos (e1.mpr hc), if_pos hc]
    simp only [Option.map_some', Option.some.injEq]
    rw [List.take_append_eq_append_take, List.drop_append_eq_append_drop,
      List.take_of_length_le h, List.drop_eq_nil_of_le (by omega)]
    have : i + n - a.length = i - a.length + n := by omega
    simp [this]
  · rw [if_neg (fun h' => hc (e1.mp h')), if_neg hc]; rfl

/-- One `memcpy` of a serializer: the buffer holds `pre` in front of the untouched rest of
`dst`, and the field `x` is copied right behind `pre`. -/
theorem memcpyTo_step (dst pre x : List Byte) (i n j : Nat) (hi : pre.length = i)
    (hx : x.length = n) (hj : j = i + n) (h : j ≤ dst.length) :
    memcpyTo (pre ++ dst.drop i) i x n = some (pre ++ (x ++ dst.drop j)) := by
  subst hi hj
  rw [memcpyTo_skip _ _ _ _ _ (le_refl _), Nat.sub_self,
    memcpyTo_zero _ _ _ hx (by rw [List.length_drop]; omega)]
  simp [Nat.add_comm]

theorem memcpyFrom_head {k : Nat} (f x : Bytes k) (l : List Byte) :
    memcpyFrom f (x.val ++ l) 0 k = some x := by
  unfold memcpyFrom
  rw [dif_pos ⟨le_refl k, by simp⟩]
  simp only [List.drop_zero, Option.some.injEq]
  apply Subtype.ext
  simp [List.take_append_eq_append_take]

theorem memcpyFrom_skip {k : Nat} (f : Bytes k) (a l : List Byte) (i n : Nat)
    (h : a.length ≤ i) :
    memcpyFrom f (a ++ l) i n = memcpyFrom f l (i - a.length) n := by
  unfold memcpyFrom
  have e1 : (n ≤ k ∧ i + n ≤ (a ++ l).length) ↔ (n ≤ k ∧ i - a.length + n ≤ l.length) := by
    rw [List.length_append]; omega
  by_cases hc : n ≤ k ∧ i - a.length + n ≤ l.length
  · rw [dif_pos (e1.mpr hc), dif_pos hc]
    simp only [Option.some.injEq]
    apply Subtype.ext
    simp only
    rw [List.drop_append_eq_append_drop, List.drop_eq_nil_of_le h, List.nil_append]
  · rw [dif_neg (fun h' => hc (e1.mp h')), dif_neg hc]

/-- One `memcpy` of a deserializer: the field `x` that lies behind `pre` in the buffer is
read whole, whatever the field held before. -/
theorem memcpyFrom_at {k : Nat} (f x : Bytes k) (pre rest : List Byte) (i : Nat)
    (hi : pre.length = i) : memcpyFrom f (pre ++ (x.val ++ rest)) i k = some x := by
  subst hi
  rw [memcpyFrom_skip _ _ _ _ _ (le_refl _), Nat.sub_self]
  exact memcpyFrom_head f x rest

/-- The bytes of a field that lies behind `pre` in a buffer. -/
theorem take_drop_at (pre x rest : List Byte) (i n : Nat) (hi : pre.length = i)
    (hx : x.length = n) : ((pre ++ (x ++ rest)).drop i).take n = x := by
  subst hi hx
  simp

theorem memset_eq (dst : List Byte) (c : Byte) (n : Nat) (h : n ≤ dst.length) :
    memset dst c n = some (List.replicate n c ++ dst.drop n) := by
  unfold memset
  rw [if_pos h]

/-! ## The serializers and deserializers in closed form -/

/-- With enough capacity `serializeMd5Ctx` writes the fields of the context one after
the other at the start of the buffer, keeps the rest of the buffer and returns their total
size. -/
theorem serializeMd5Ctx_eq (dst : List Byte) (dstSize : Nat) (ctx : MD5_CTX)
    (h1 : 92 ≤ dstSize) (h2 : dstSize ≤ dst.length) :
    serializeMd5Ctx dst dstSize ctx =
      some (ctx.A.val ++ (ctx.B.val ++ (ctx.C.val ++ (ctx.D.val ++ (ctx.Nl.val ++ (ctx.Nh.val
        ++ (ctx.data.val ++ (ctx.num.val ++ (dst.drop 92)))))))),
        92) := by
  unfold serializeMd5Ctx
  have hc : ¬ dstSize < ctx.A.sizeof + ctx.B.sizeof + ctx.C.sizeof + ctx.D.sizeof +
      ctx.Nl.sizeof + ctx.Nh.sizeof + sizeof_MD5_LONG * MD5_LBLOCK +
      ctx.num.sizeof := by
    simp only [Bytes.sizeof_eq, sizeof_MD5_LONG, MD5_LBLOCK]; omega
  rw [if_neg hc]
  simp only [Bytes.sizeof_eq, sizeof_MD5_LONG, MD5_LBLOCK, Nat.zero_add, Nat.reduceMul,
    Nat.reduceAdd]
  have s0 := memcpyTo_step dst
    ([])
    ctx.A.val (0) 4 (4)
    (by simp only [List.length_append, List.length_nil, Bytes.length_val])
    (Bytes.length_val _) (by omega) (by omega)
  have s1 := memcpyTo_step dst
    (ctx.A.val)
    ctx.B.val (4) 4 (8)
    (by simp only [List.length_append, List.length_nil, Bytes.length_val])
    (Bytes.length_val _) (by omega) (by omega)
  have s2 := memcpyTo_step dst
    (ctx.A.val ++ ctx.B.val)
    ctx.C.val (8) 4 (12)
    (by simp only [List.length_append, List.length_nil, Bytes.length_val])
    (Bytes.length_val _) (by omega) (by omega)
  have s3 := memcpyTo_step dst
    (ctx.A.val ++ ctx.B.val ++ ctx.C.val)
    ctx.D.val (12) 4 (16)
    (by simp only [List.length_append, List.length_nil, Bytes.length_val])
    (Bytes.length_val _) (by omega) (by omega)
  have s4 := memcpyTo_step dst
    (ctx.A.val ++ ctx.B.val ++ ctx.C.val ++ ctx.D.val)
    ctx.Nl.val (16) 4 (20)
    (by simp only [List.length_append, List.length_nil, Bytes.length_val])
    (Bytes.length_val _) (by omega) (by omega)
  have s5 := memcpyTo_step dst
    (ctx.A.val ++ ctx.B.val ++ ctx.C.val ++ ctx.D.val ++ ctx.Nl.val)
    ctx.Nh.val (20) 4 (24)
    (by simp only [List.length_append, List.length_nil, Bytes.length_val])
    (Bytes.length_val _) (by omega) (by omega)
  have s6 := memcpyTo_step dst
    (ctx.A.val ++ ctx.B.val ++ ctx.C.val ++ ctx.D.val ++ ctx.Nl.val ++ ctx.Nh.val)
    ctx.data.val (24) 64 (88)
    (by simp only [List.length_append, List.length_nil, Bytes.length_val])
    (Bytes.length_val _) (by omega) (by omega)
  have s7 := memcpyTo_step dst
    (ctx.A.val ++ ctx.B.val ++ ctx.C.val ++ ctx.D.val ++ ctx.Nl.val ++ ctx.Nh.val ++
      ctx.data.val)
    ctx.num.val (88) 4 (92)
    (by simp only [List.length_append, List.length_nil, Bytes.length_val])
    (Bytes.length_val _) (by omega) (by omega)
  simp only [List.nil_append, List.append_assoc, List.drop_zero] at s0 s1 s2 s3 s4 s5 s6 s7
  simp only [s0, s1, s2, s3, s4, s5, s6, s7, Option.bind_eq_bind, Option.some_bind]

/-- On a buffer that starts with the bytes of the fields, one after the other,
`deserializeMd5Ctx` returns the context with these fields. -/
theorem deserializeMd5Ctx_eq (x0 : Bytes 4) (x1 : Bytes 4) (x2 : Bytes 4) (x3 : Bytes 4) (x4 :
    Bytes 4) (x5 : Bytes 4) (x6 : Bytes 64) (x7 : Bytes 4)
    (tl : List Byte) :
    deserializeMd5Ctx (x0.val ++ (x1.val ++ (x2.val ++ (x3.val ++ (x4.val ++ (x5.val ++
      (x6.val ++ (x7.val ++ (tl))))))))) =
      some ⟨x0, x1, x2, x3, x4, x5, x6, x7⟩ := by
  unfold deserializeMd5Ctx
  simp only [Bytes.sizeof_eq, sizeof_MD5_LONG, MD5_LBLOCK, Nat.zero_add, Nat.reduceMul,
    Nat.reduceAdd, Nat.one_mul]
  have r0 := fun f => memcpyFrom_at f x0
    ([])
    (x1.val ++ (x2.val ++ (x3.val ++ (x4.val ++ (x5.val ++ (x6.val ++ (x7.val ++ (tl)))))))) (0)
    (by simp only [List.length_append, List.length_nil, Bytes.length_val])
  have r1 := fun f => memcpyFrom_at f x1
    (x0.val)
    (x2.val ++ (x3.val ++ (x4.val ++ (x5.val ++ (x6.val ++ (x7.val ++ (tl))))))) (4)
    (by simp only [List.length_append, List.length_nil, Bytes.length_val])
  have r2 := fun f => memcpyFrom_at f x2
    (x0.val ++ x1.val)
    (x3.val ++ (x4.val ++ (x5.val ++ (x6.val ++ (x7.val ++ (tl)))))) (8)
    (by simp only [List.length_append, List.length_nil, Bytes.length_val])
  have r3 := fun f => memcpyFrom_at f x3
    (x0.val ++ x1.val ++ x2.val)
    (x4.val ++ (x5.val ++ (x6.val ++ (x7.val ++ (tl))))) (12)
    (by simp only [List.length_append, List.length_nil, Bytes.length_val])
  have r4 := fun f => memcpyFrom_at f x4
    (x0.val ++ x1.val ++ x2.val ++ x3.val)
    (x5.val ++ (x6.val ++ (x7.val ++ (tl)))) (16)
    (by simp only [List.length_append, List.length_nil, Bytes.length_val])
  have r5 := fun f => memcpyFrom_at f x5
    (x0.val ++ x1.val ++ x2.val ++ x3.val ++ x4.val)
    (x6.val ++ (x7.val ++ (tl))) (20)
    (by simp only [List.length_append, List.length_nil, Bytes.length_val])
  have r6 := fun f => memcpyFrom_at f x6
    (x0.val ++ x1.val ++ x2.val ++ x3.val ++ x4.val ++ x5.val)
    (x7.val ++ (tl)) (24)
    (by simp only [List.length_append, List.length_nil, Bytes.length_val])
  have r7 := fun f => memcpyFrom_at f x7
    (x0.val ++ x1.val ++ x2.val ++ x3.val ++ x4.val ++ x5.val ++ x6.val)
    (tl) (88)
    (by simp only [List.length_append, List.length_nil, Bytes.length_val])
  simp only [List.nil_append, List.append_assoc] at r0 r1 r2 r3 r4 r5 r6 r7
  simp only [r0, r1, r2, r3, r4, r5, r6, r7, Option.bind_eq_bind, Option.some_bind]

/-- With enough capacity `serializeSha1Ctx` writes the fields of the context one after
the other at the start of the buffer, keeps the rest of the buffer and returns their total
size. -/
theorem serializeSha1Ctx_eq (dst : List Byte) (dstSize : Nat) (ctx : SHA_CTX)
    (h1 : 96 ≤ dstSize) (h2 : dstSize ≤ dst.length) :
    serializeSha1Ctx dst dstSize ctx =
      some (ctx.h0.val ++ (ctx.h1.val ++ (ctx.h2.val ++ (ctx.h3.val ++ (ctx.h4.val ++
        (ctx.Nl.val ++ (ctx.Nh.val ++ (ctx.data.val ++ (ctx.num.val ++ (dst.drop
        96))))))))),
        96) := by
  unfold serializeSha1Ctx
  have hc : ¬ dstSize < ctx.h0.sizeof + ctx.h1.sizeof + ctx.h2.sizeof + ctx.h3.sizeof +
      ctx.h4.sizeof + ctx.Nl.sizeof + ctx.Nh.sizeof + sizeof_SHA_LONG *
      SHA_LBLOCK + ctx.num.sizeof := by
    simp only [Bytes.sizeof_eq, sizeof_SHA_LONG, SHA_LBLOCK]; omega
  rw [if_neg hc]
  simp only [Bytes.sizeof_eq, sizeof_SHA_LONG, SHA_LBLOCK, Nat.zero_add, Nat.reduceMul,
    Nat.reduceAdd]
  have s0 := memcpyTo_step dst
    ([])
    ctx.h0.val (0) 4 (4)
    (by simp only [List.length_append, List.length_nil, Bytes.length_val])
    (Bytes.length_val _) (by omega) (by omega)
  have s1 := memcpyTo_step dst
    (ctx.h0.val)
    ctx.h1.val (4) 4 (8)
    (by simp only [List.length_append, List.length_nil, Bytes.length_val])
    (Bytes.length_val _) (by omega) (by omega)
  have s2 := memcpyTo_step dst
    (ctx.h0.val ++ ctx.h1.val)
    ctx.h2.val (8) 4 (12)
    (by simp only [List.length_append, List.length_nil, Bytes.length_val])
    (Bytes.length_val _) (by omega) (by omega)
  have s3 := memcpyTo_step dst
    (ctx.h0.val ++ ctx.h1.val ++ ctx.h2.val)
    ctx.h3.val (12) 4 (16)
    (by simp only [List.length_append, List.length_nil, Bytes.length_val])
    (Bytes.length_val _) (by omega) (by omega)
  have s4 := memcpyTo_step dst
    (ctx.h0.val ++ ctx.h1.val ++ ctx.h2.val ++ ctx.h3.val)
    ctx.h4.val (16) 4 (20)
    (by simp only [List.length_append, List.length_nil, Bytes.length_val])
    (Bytes.length_val _) (by omega) (by omega)
  have s5 := memcpyTo_step dst
    (ctx.h0.val ++ ctx.h1.val ++ ctx.h2.val ++ ctx.h3.val ++ ctx.h4.val)
    ctx.Nl.val (20) 4 (24)
    (by simp only [List.length_append, List.length_nil, Bytes.length_val])
    (Bytes.length_val _) (by omega) (by omega)
  have s6 := memcpyTo_step dst
    (ctx.h0.val ++ ctx.h1.val ++ ctx.h2.val ++ ctx.h3.val ++ ctx.h4.val ++ ctx.Nl.val)
    ctx.Nh.val (24) 4 (28)
    (by simp only [List.length_append, List.length_nil, Bytes.length_val])
    (Bytes.length_val _) (by omega) (by omega)
  have s7 := memcpyTo_step dst
    (ctx.h0.val ++ ctx.h1.val ++ ctx.h2.val ++ ctx.h3.val ++ ctx.h4.val ++ ctx.Nl.val ++
      ctx.Nh.val)
    ctx.data.val (28) 64 (92)
    (by simp only [List.length_append, List.length_nil, Bytes.length_val])
    (Bytes.length_val _) (by omega) (by omega)
  have s8 := memcpyTo_step dst
    (ctx.h0.val ++ ctx.h1.val ++ ctx.h2.val ++ ctx.h3.val ++ ctx.h4.val ++ ctx.Nl.val ++
      ctx.Nh.val ++ ctx.data.val)
    ctx.num.val (92) 4 (96)
    (by simp only [List.length_append, List.length_nil, Bytes.length_val])
    (Bytes.length_val _) (by omega) (by omega)
  simp only [List.nil_append, List.append_assoc, List.drop_zero] at s0 s1 s2 s3 s4 s5 s6 s7 s8
  simp only [s0, s1, s2, s3, s4, s5, s6, s7, s8, Option.bind_eq_bind, Option.some_bind]

/-- On a buffer that starts with the bytes of the fields, one after the other,
`deserializeSha1Ctx` returns the context with these fields. -/
theorem deserializeSha1Ctx_eq (x0 : Bytes 4) (x1 : Bytes 4) (x2 : Bytes 4) (x3 : Bytes 4) (x4 :
    Bytes 4) (x5 : Bytes 4) (x6 : Bytes 4) (x7 : Bytes 64) (x8 : Bytes
    4)
    (tl : List Byte) :
    deserializeSha1Ctx (x0.val ++ (x1.val ++ (x2.val ++ (x3.val ++ (x4.val ++ (x5.val ++
      (x6.val ++ (x7.val ++ (x8.val ++ (tl)))))))))) =
      some ⟨x0, x1, x2, x3, x4, x5, x6, x7, x8⟩ := by
  unfold deserializeSha1Ctx
  simp only [Bytes.sizeof_eq, sizeof_SHA_LONG, SHA_LBLOCK, Nat.zero_add, Nat.reduceMul,
    Nat.reduceAdd, Nat.one_mul]
  have r0 := fun f => memcpyFrom_at f x0
    ([])
    (x1.val ++ (x2.val ++ (x3.val ++ (x4.val ++ (x5.val ++ (x6.val ++ (x7.val ++ (x8.val ++
      (tl))))))))) (0)
    (by simp only [List.length_append, List.length_nil, Bytes.length_val])
  have r1 := fun f => memcpyFrom_at f x1
    (x0.val)
    (x2.val ++ (x3.val ++ (x4.val ++ (x5.val ++ (x6.val ++ (x7.val ++ (x8.val ++ (tl)))))))) (4)
    (by simp only [List.length_append, List.length_nil, Bytes.length_val])
  have r2 := fun f => memcpyFrom_at f x2
    (x0.val ++ x1.val)
    (x3.val ++ (x4.val ++ (x5.val ++ (x6.val ++ (x7.val ++ (x8.val ++ (tl))))))) (8)
    (by simp only [List.length_append, List.length_nil, Bytes.length_val])
  have r3 := fun f => memcpyFrom_at f x3
    (x0.val ++ x1.val ++ x2.val)
    (x4.val ++ (x5.val ++ (x6.val ++ (x7.val ++ (x8.val ++ (tl)))))) (12)
    (by simp only [List.length_append, List.length_nil, Bytes.length_val])
  have r4 := fun f => memcpyFrom_at f x4
    (x0.val ++ x1.val ++ x2.val ++ x3.val)
    (x5.val ++ (x6.val ++ (x7.val ++ (x8.val ++ (tl))))) (16)
    (by simp only [List.length_append, List.length_nil, Bytes.length_val])
  have r5 := fun f => memcpyFrom_at f x5
    (x0.val ++ x1.val ++ x2.val ++ x3.val ++ x4.val)
    (x6.val ++ (x7.val ++ (x8.val ++ (tl)))) (20)
    (by simp only [List.length_append, List.length_nil, Bytes.length_val])
  have r6 := fun f => memcpyFrom_at f x6
    (x0.val ++ x1.val ++ x2.val ++ x3.val ++ x4.val ++ x5.val)
    (x7.val ++ (x8.val ++ (tl))) (24)
    (by simp only [List.length_append, List.length_nil, Bytes.length_val])
  have r7 := fun f => memcpyFrom_at f x7
    (x0.val ++ x1.val ++ x2.val ++ x3.val ++ x4.val ++ x5.val ++ x6.val)
    (x8.val ++ (tl)) (28)
    (by simp only [List.length_append, List.length_nil, Bytes.length_val])
  have r8 := fun f => memcpyFrom_at f x8
    (x0.val ++ x1.val ++ x2.val ++ x3.val ++ x4.val ++ x5.val ++ x6.val ++ x7.val)
    (tl) (92)
    (by simp only [List.length_append, List.length_nil, Bytes.length_val])
  simp only [List.nil_append, List.append_assoc] at r0 r1 r2 r3 r4 r5 r6 r7 r8
  simp only [r0, r1, r2, r3, r4, r5, r6, r7, r8, Option.bind_eq_bind, Option.some_bind]

/-- With enough capacity `serializeSha256Ctx` writes the fields of the context one after
the other at the start of the buffer, keeps the rest of the buffer and returns their total
size. -/
theorem serializeSha256Ctx_eq (dst : List Byte) (dstSize : Nat) (ctx : SHA256_CTX)
    (h1 : 112 ≤ dstSize) (h2 : dstSize ≤ dst.length) :
    serializeSha256Ctx dst dstSize ctx =
      some (ctx.h.val ++ (ctx.Nl.val ++ (ctx.Nh.val ++ (ctx.data.val ++ (ctx.num.val ++
        (ctx.md_len.val ++ (dst.drop 112)))))),
        112) := by
  unfold serializeSha256Ctx
  have hc : ¬ dstSize < sizeof_SHA_LONG * 8 + ctx.Nl.sizeof + ctx.Nh.sizeof +
      sizeof_SHA_LONG * SHA_LBLOCK + ctx.num.sizeof + ctx.md_len.sizeof := by
    simp only [Bytes.sizeof_eq, sizeof_SHA_LONG, SHA_LBLOCK]; omega
  rw [if_neg hc]
  simp only [Bytes.sizeof_eq, sizeof_SHA_LONG, SHA_LBLOCK, Nat.zero_add, Nat.reduceMul,
    Nat.reduceAdd]
  have s0 := memcpyTo_step dst
    ([])
    ctx.h.val (0) 32 (32)
    (by simp only [List.length_append, List.length_nil, Bytes.length_val])
    (Bytes.length_val _) (by omega) (by omega)
  have s1 := memcpyTo_step dst
    (ctx.h.val)
    ctx.Nl.val (32) 4 (36)
    (by simp only [List.length_append, List.length_nil, Bytes.length_val])
    (Bytes.length_val _) (by omega) (by omega)
  have s2 := memcpyTo_step dst
    (ctx.h.val ++ ctx.Nl.val)
    ctx.Nh.val (36) 4 (40)
    (by simp only [List.length_append, List.length_nil, Bytes.length_val])
    (Bytes.length_val _) (by omega) (by omega)
  have s3 := memcpyTo_step dst
    (ctx.h.val ++ ctx.Nl.val ++ ctx.Nh.val)
    ctx.data.val (40) 64 (104)
    (by simp only [List.length_append, List.length_nil, Bytes.length_val])
    (Bytes.length_val _) (by omega) (by omega)
  have s4 := memcpyTo_step dst
    (ctx.h.val ++ ctx.Nl.val ++ ctx.Nh.val ++ ctx.data.val)
    ctx.num.val (104) 4 (108)
    (by simp only [List.length_append, List.length_nil, Bytes.length_val])
    (Bytes.length_val _) (by omega) (by omega)
  have s5 := memcpyTo_step dst
    (ctx.h.val ++ ctx.Nl.val ++ ctx.Nh.val ++ ctx.data.val ++ ctx.num.val)
    ctx.md_len.val (108) 4 (112)
    (by simp only [List.length_append, List.length_nil, Bytes.length_val])
    (Bytes.length_val _) (by omega) (by omega)
  simp only [List.nil_append, List.append_assoc, List.drop_zero] at s0 s1 s2 s3 s4 s5
  simp only [s0, s1, s2, s3, s4, s5, Option.bind_eq_bind, Option.some_bind]

/-- On a buffer that starts with the bytes of the fields, one after the other,
`deserializeSha256Ctx` returns the context with these fields. -/
theorem deserializeSha256Ctx_eq (x0 : Bytes 32) (x1 : Bytes 4) (x2 : Bytes 4) (x3 : Bytes 64) (x4
    : Bytes 4) (x5 : Bytes 4)
    (tl : List Byte) :
    deserializeSha256Ctx (x0.val ++ (x1.val ++ (x2.val ++ (x3.val ++ (x4.val ++ (x5.val ++
      (tl))))))) =
      some ⟨x0, x1, x2, x3, x4, x5⟩ := by
  unfold deserializeSha256Ctx
  simp only [Bytes.sizeof_eq, sizeof_SHA_LONG, SHA_LBLOCK, Nat.zero_add, Nat.reduceMul,
    Nat.reduceAdd, Nat.one_mul]
  have r0 := fun f => memcpyFrom_at f x0
    ([])
    (x1.val ++ (x2.val ++ (x3.val ++ (x4.val ++ (x5.val ++ (tl)))))) (0)
    (by simp only [List.length_append, List.length_nil, Bytes.length_val])
  have r1 := fun f => memcpyFrom_at f x1
    (x0.val)
    (x2.val ++ (x3.val ++ (x4.val ++ (x5.val ++ (tl))))) (32)
    (by simp only [List.length_append, List.length_nil, Bytes.length_val])
  have r2 := fun f => memcpyFrom_at f x2
    (x0.val ++ x1.val)
    (x3.val ++ (x4.val ++ (x5.val ++ (tl)))) (36)
    (by simp only [List.length_append, List.length_nil, Bytes.length_val])
  have r3 := fun f => memcpyFrom_at f x3
    (x0.val ++ x1.val ++ x2.val)
    (x4.val ++ (x5.val ++ (tl))) (40)
    (by simp only [List.length_append, List.length_nil, Bytes.length_val])
  have r4 := fun f => memcpyFrom_at f x4
    (x0.val ++ x1.val ++ x2.val ++ x3.val)
    (x5.val ++ (tl)) (104)
    (by simp only [List.length_append, List.length_nil, Bytes.length_val])
  have r5 := fun f => memcpyFrom_at f x5
    (x0.val ++ x1.val ++ x2.val ++ x3.val ++ x4.val)
    (tl) (108)
    (by simp only [List.length_append, List.length_nil, Bytes.length_val])
  simp only [List.nil_append, List.append_assoc] at r0 r1 r2 r3 r4 r5
  simp only [r0, r1, r2, r3, r4, r5, Option.bind_eq_bind, Option.some_bind]

/-- With enough capacity `serializeSha512Ctx` writes the fields of the context one after
the other at the start of the buffer, keeps the rest of the buffer and returns their total
size. -/
theorem serializeSha512Ctx_eq {w : Nat} (dst : List Byte) (dstSize : Nat) (ctx : SHA512_CTX w)
    (h1 : 328 + 2 * w ≤ dstSize) (h2 : dstSize ≤ dst.length) :
    serializeSha512Ctx dst dstSize ctx =
      some (ctx.h.val ++ (ctx.Nl.val ++ (ctx.Nh.val ++ (ctx.u.val ++ (ctx.u.val ++
        (ctx.num.val ++ (ctx.md_len.val ++ (dst.drop (328 + 2 * w)))))))),
        328 + 2 * w) := by
  unfold serializeSha512Ctx
  have hc : ¬ dstSize < sizeof_SHA_LONG64 * 8 + ctx.Nl.sizeof + ctx.Nh.sizeof +
      sizeof_SHA_LONG64 * SHA_LBLOCK + sizeof_uchar * SHA512_CBLOCK +
      ctx.num.sizeof + ctx.md_len.sizeof := by
    simp only [Bytes.sizeof_eq, sizeof_SHA_LONG64, SHA_LBLOCK, sizeof_uchar, SHA512_CBLOCK]; omega
  rw [if_neg hc]
  simp only [Bytes.sizeof_eq, sizeof_SHA_LONG64, SHA_LBLOCK, sizeof_uchar, SHA512_CBLOCK, Nat.zero_add, Nat.reduceMul,
    Nat.reduceAdd]
  have s0 := memcpyTo_step dst
    ([])
    ctx.h.val (0) 64 (64)
    (by simp only [List.length_append, List.length_nil, Bytes.length_val])
    (Bytes.length_val _) (by omega) (by omega)
  have s1 := memcpyTo_step dst
    (ctx.h.val)
    ctx.Nl.val (64) w (64 + w)
    (by simp only [List.length_append, List.length_nil, Bytes.length_val])
    (Bytes.length_val _) (by omega) (by omega)
  have s2 := memcpyTo_step dst
    (ctx.h.val ++ ctx.Nl.val)
    ctx.Nh.val (64 + w) w (64 + w + w)
    (by simp only [List.length_append, List.length_nil, Bytes.length_val])
    (Bytes.length_val _) (by omega) (by omega)
  have s3 := memcpyTo_step dst
    (ctx.h.val ++ ctx.Nl.val ++ ctx.Nh.val)
    ctx.u.val (64 + w + w) 128 (64 + w + w + 128)
    (by simp only [List.length_append, List.length_nil, Bytes.length_val])
    (Bytes.length_val _) (by omega) (by omega)
  have s4 := memcpyTo_step dst
    (ctx.h.val ++ ctx.Nl.val ++ ctx.Nh.val ++ ctx.u.val)
    ctx.u.val (64 + w + w + 128) 128 (64 + w + w + 128 + 128)
    (by simp only [List.length_append, List.length_nil, Bytes.length_val])
    (Bytes.length_val _) (by omega) (by omega)
  have s5 := memcpyTo_step dst
    (ctx.h.val ++ ctx.Nl.val ++ ctx.Nh.val ++ ctx.u.val ++ ctx.u.val)
    ctx.num.val (64 + w + w + 128 + 128) 4 (64 + w + w + 128 + 128 + 4)
    (by simp only [List.length_append, List.length_nil, Bytes.length_val])
    (Bytes.length_val _) (by omega) (by omega)
  have s6 := memcpyTo_step dst
    (ctx.h.val ++ ctx.Nl.val ++ ctx.Nh.val ++ ctx.u.val ++ ctx.u.val ++ ctx.num.val)
    ctx.md_len.val (64 + w + w + 128 + 128 + 4) 4 (64 + w + w + 128 + 128 + 4 + 4)
    (by simp only [List.length_append, List.length_nil, Bytes.length_val])
    (Bytes.length_val _) (by omega) (by omega)
  simp only [List.nil_append, List.append_assoc, List.drop_zero] at s0 s1 s2 s3 s4 s5 s6
  simp only [s0, s1, s2, s3, s4, s5, s6, Option.bind_eq_bind, Option.some_bind]
  have e : 64 + w + w + 128 + 128 + 4 + 4 = 328 + 2 * w := by omega
  rw [e]

/-- On a buffer that starts with the bytes of the fields, one after the other,
`deserializeSha512Ctx` returns the context with these fields. -/
theorem deserializeSha512Ctx_eq {w : Nat} (h : Bytes 64) (nl nh : Bytes w) (d p : Bytes 128) (num md : Bytes
    4)
    (tl : List Byte) :
    deserializeSha512Ctx w (h.val ++ (nl.val ++ (nh.val ++ (d.val ++ (p.val ++ (num.val ++ (md.val
      ++ (tl)))))))) =
      some ⟨h, nl, nh, p, num, md⟩ := by
  unfold deserializeSha512Ctx
  simp only [Bytes.sizeof_eq, sizeof_SHA_LONG64, SHA_LBLOCK, sizeof_uchar, SHA512_CBLOCK, Nat.zero_add, Nat.reduceMul,
    Nat.reduceAdd, Nat.one_mul]
  have r0 := fun f => memcpyFrom_at f h
    ([])
    (nl.val ++ (nh.val ++ (d.val ++ (p.val ++ (num.val ++ (md.val ++ (tl))))))) (0)
    (by simp only [List.length_append, List.length_nil, Bytes.length_val])
  have r1 := fun f => memcpyFrom_at f nl
    (h.val)
    (nh.val ++ (d.val ++ (p.val ++ (num.val ++ (md.val ++ (tl)))))) (64)
    (by simp only [List.length_append, List.length_nil, Bytes.length_val])
  have r2 := fun f => memcpyFrom_at f nh
    (h.val ++ nl.val)
    (d.val ++ (p.val ++ (num.val ++ (md.val ++ (tl))))) (64 + w)
    (by simp only [List.length_append, List.length_nil, Bytes.length_val])
  have r3 := fun f => memcpyFrom_at f d
    (h.val ++ nl.val ++ nh.val)
    (p.val ++ (num.val ++ (md.val ++ (tl)))) (64 + w + w)
    (by simp only [List.length_append, List.length_nil, Bytes.length_val])
  have r4 := fun f => memcpyFrom_at f p
    (h.val ++ nl.val ++ nh.val ++ d.val)
    (num.val ++ (md.val ++ (tl))) (64 + w + w + 128)
    (by simp only [List.length_append, List.length_nil, Bytes.length_val])
  have r5 := fun f => memcpyFrom_at f num
    (h.val ++ nl.val ++ nh.val ++ d.val ++ p.val)
    (md.val ++ (tl)) (64 + w + w + 128 + 128)
    (by simp only [List.length_append, List.length_nil, Bytes.length_val])
  have r6 := fun f => memcpyFrom_at f md
    (h.val ++ nl.val ++ nh.val ++ d.val ++ p.val ++ num.val)
    (tl) (64 + w + w + 128 + 128 + 4)
    (by simp only [List.length_append, List.length_nil, Bytes.length_val])
  simp only [List.nil_append, List.append_assoc] at r0 r1 r2 r3 r4 r5 r6
  simp only [r0, r1, r2, r3, r4, r5, r6, Option.bind_eq_bind, Option.some_bind]


/-- Below the required size `serializeMd5Ctx` writes nothing and returns `(size_t)-1`. -/
theorem serializeMd5Ctx_small (dst : List Byte) (dstSize : Nat) (ctx : MD5_CTX)
    (h : dstSize < 92) : serializeMd5Ctx dst dstSize ctx = some (dst, size_t_of (-1)) := by
  unfold serializeMd5Ctx
  have hc : dstSize < ctx.A.sizeof + ctx.B.sizeof + ctx.C.sizeof + ctx.D.sizeof +
      ctx.Nl.sizeof + ctx.Nh.sizeof + sizeof_MD5_LONG * MD5_LBLOCK + ctx.num.sizeof := by
    simp only [Bytes.sizeof_eq, sizeof_MD5_LONG, MD5_LBLOCK]; omega
  rw [if_pos hc]

/-- Below the required size `serializeSha1Ctx` writes nothing and returns `(size_t)-1`. -/
theorem serializeSha1Ctx_small (dst : List Byte) (dstSize : Nat) (ctx : SHA_CTX)
    (h : dstSize < 96) : serializeSha1Ctx dst dstSize ctx = some (dst, size_t_of (-1)) := by
  unfold serializeSha1Ctx
  have hc : dstSize < ctx.h0.sizeof + ctx.h1.sizeof + ctx.h2.sizeof + ctx.h3.sizeof +
      ctx.h4.sizeof + ctx.Nl.sizeof + ctx.Nh.sizeof + sizeof_SHA_LONG * SHA_LBLOCK +
      ctx.num.sizeof := by
    simp only [Bytes.sizeof_eq, sizeof_SHA_LONG, SHA_LBLOCK]; omega
  rw [if_pos hc]

/-- Below the required size `serializeSha256Ctx` writes nothing and returns `(size_t)-1`. -/
theorem serializeSha256Ctx_small (dst : List Byte) (dstSize : Nat) (ctx : SHA256_CTX)
    (h : dstSize < 112) : serializeSha256Ctx dst dstSize ctx = some (dst, size_t_of (-1)) := by
  unfold serializeSha256Ctx
  have hc : dstSize < sizeof_SHA_LONG * 8 + ctx.Nl.sizeof + ctx.Nh.sizeof +
      sizeof_SHA_LONG * SHA_LBLOCK + ctx.num.sizeof + ctx.md_len.sizeof := by
    simp only [Bytes.sizeof_eq, sizeof_SHA_LONG, SHA_LBLOCK]; omega
  rw [if_pos hc]

/-- Below the required size `serializeSha512Ctx` writes nothing and returns `(size_t)-1`. -/
theorem serializeSha512Ctx_small {w : Nat} (dst : List Byte) (dstSize : Nat)
    (ctx : SHA512_CTX w) (h : dstSize < 328 + 2 * w) :
    serializeSha512Ctx dst dstSize ctx = some (dst, size_t_of (-1)) := by
  unfold serializeSha512Ctx
  have hc : dstSize < sizeof_SHA_LONG64 * 8 + ctx.Nl.sizeof + ctx.Nh.sizeof +
      sizeof_SHA_LONG64 * SHA_LBLOCK + sizeof_uchar * SHA512_CBLOCK + ctx.num.sizeof +
      ctx.md_len.sizeof := by
    simp only [Bytes.sizeof_eq, sizeof_SHA_LONG64, SHA_LBLOCK, sizeof_uchar, SHA512_CBLOCK]
    omega
  rw [if_pos hc]

/-! ## Hexadecimal rendering -/

set_option maxRecDepth 100000 in
theorem hexmap_hi (b : Byte) :
    hexmap[(b.val &&& 0xF0) >>> 4]? = some (hexmap.getD (b.val / 16) ' ') := by
  revert b; decide

set_option maxRecDepth 100000 in
theorem hexmap_lo (b : Byte) :
    hexmap[b.val &&& 0x0F]? = some (hexmap.getD (b.val % 16) ' ') := by
  revert b; decide

theorem hexmap_isLowerHex : ∀ k : Fin 16, isLowerHex (hexmap.getD k.val ' ') := by
  unfold isLowerHex; decide

theorem hexValue_hexmap : ∀ k : Fin 16, hexValue (hexmap.getD k.val ' ') = some k.val := by
  decide

theorem hexString_length (data : List Byte) : (hexString data).length = 2 * data.length := by
  induction data with
  | nil => rfl
  | cons b bs ih => simp only [hexString, List.length_cons, ih]; omega

theorem hexString_append (xs ys : List Byte) :
    hexString (xs ++ ys) = hexString xs ++ hexString ys := by
  induction xs with
  | nil => rfl
  | cons b bs ih => simp [hexString, ih]

theorem set_set_blank (H : List Char) (c d : Char) (m : Nat) :
    ((H ++ List.replicate (2 * (m + 1)) ' ').set H.length c).set (H.length + 1) d =
      H ++ (c :: d :: List.replicate (2 * m) ' ') := by
  induction H with
  | nil =>
    have e : 2 * (m + 1) = 2 * m + 1 + 1 := by omega
    simp [e, List.replicate_succ]
  | cons x xs ih => simpa using ih

/-- The state of the string after `k` iterations of the loop of `toHex`: `k` bytes are
rendered, the rest of the string is still blank. -/
theorem toHex_loop (data : List Byte) (k : Nat) (hk : k ≤ data.length) :
    (List.range k).foldlM (toHexStep data) (List.replicate (data.length * 2) ' ') =
      some (hexString (data.take k) ++ List.replicate (2 * (data.length - k)) ' ') := by
  induction k with
  | zero => simp [hexString, Nat.mul_comm]
  | succ k ih =>
    have hk' : k < data.length := hk
    rw [List.range_succ, List.foldlM_append, ih (Nat.le_of_lt hk')]
    simp only [Option.bind_eq_bind, Option.some_bind, List.foldlM_cons, List.foldlM_nil]
    have e1 : data.length - k = (data.length - (k + 1)) + 1 := by omega
    have e2 : 2 * k = (hexString (data.take k)).length := by
      rw [hexString_length, List.length_take]; omega
    have e3 : data.take (k + 1) = data.take k ++ [data[k]] := by
      rw [List.take_succ, List.getElem?_eq_getElem hk']; rfl
    unfold toHexStep
    rw [List.getElem?_eq_getElem hk']
    simp only [Option.bind_eq_bind, Option.some_bind, hexmap_hi, hexmap_lo, Option.pure_def]
    rw [e1, e2, set_set_blank, e3, hexString_append]
    simp [hexString]

/-- The string `toHex` returns for `len` bytes with `len * 2` an `int`: the hexadecimal
rendering of the bytes. -/
theorem toHex_eq_hexString (data : List Byte) (h : 2 * data.length ≤ 2147483647) :
    toHex data (data.length : Nat) = some (hexString data) := by
  unfold toHex
  have hc : ¬ (((data.length : Nat) : Int) < 0 ∨ INT_MAX < ((data.length : Nat) : Int) * 2) := by
    unfold INT_MAX; omega
  rw [if_neg hc]
  simp only [Int.toNat_ofNat]
  rw [toHex_loop data data.length (le_refl _)]
  simp

theorem hexString_isLowerHex (data : List Byte) : ∀ c ∈ hexString data, isLowerHex c := by
  induction data with
  | nil => intro c hc; simp [hexString] at hc
  | cons b bs ih =>
    intro c hc
    simp only [hexString, List.mem_cons] at hc
    rcases hc with rfl | rfl | hc
    · exact hexmap_isLowerHex ⟨b.val / 16, by omega⟩
    · exact hexmap_isLowerHex ⟨b.val % 16, by omega⟩
    · exact ih c hc

theorem hexString_getElem (data : List Byte) (i : Nat) (hi : i < data.length) :
    (hexString data)[2 * i]? = some (hexmap.getD (data[i].val / 16) ' ') ∧
    (hexString data)[2 * i + 1]? = some (hexmap.getD (data[i].val % 16) ' ') := by
  induction data generalizing i with
  | nil => simp at hi
  | cons b bs ih =>
    cases i with
    | zero => simp [hexString]
    | succ j =>
      have hj : j < bs.length := by simpa using hi
      have e1 : 2 * (j + 1) = 2 * j + 1 + 1 := by omega
      rw [e1]
      simpa [hexString] using ih j hj

theorem unhex_hexString (data : List Byte) : unhex (hexString data) = some data := by
  induction data with
  | nil => rfl
  | cons b bs ih =>
    have h1 := hexValue_hexmap ⟨b.val / 16, by omega⟩
    have h2 := hexValue_hexmap ⟨b.val % 16, by omega⟩
    simp only at h1 h2
    simp only [hexString, unhex, h1, h2, ih, Option.bind_eq_bind, Option.some_bind,
      Option.some.injEq, List.cons.injEq, and_true]
    apply Fin.ext
    simp only [Fin.ofNat, Fin.val_mk]
    omega

/-! ## The engine: basic facts -/

theorem md5_bytes_length (c : MD5_CTX) : c.bytes.length = 92 := by
  simp [MD5_CTX.bytes]

theorem sha1_bytes_length (c : SHA_CTX) : c.bytes.length = 96 := by
  simp [SHA_CTX.bytes]

theorem sha256_bytes_length (c : SHA256_CTX) : c.bytes.length = 112 := by
  simp [SHA256_CTX.bytes]

theorem sha512_bytes_length {w : Nat} (c : SHA512_CTX w) : c.bytes.length = 328 + 2 * w := by
  simp [SHA512_CTX.bytes]; omega

/-- The two outcomes of a serializer, told apart by its capacity check. -/
theorem capacity_cases (dst img : List Byte) (N dstSize : Nat)
    (r : Option (List Byte × Nat)) (hN : N ≠ 18446744073709551615) (himg : img.length = N)
    (hsmall : dstSize < N → r = some (dst, size_t_of (-1)))
    (hbig : N ≤ dstSize → r = some (img ++ dst.drop N, N)) :
    ∃ buf n, r = some (buf, n) ∧ (n = size_t_of (-1) ↔ dstSize < N) ∧
      (¬ dstSize < N → n = N ∧ buf.take N = img ∧ buf.drop N = dst.drop N) := by
  by_cases hlt : dstSize < N
  · exact ⟨dst, _, hsmall hlt, ⟨fun _ => hlt, fun _ => rfl⟩, fun hn => absurd hlt hn⟩
  · refine ⟨_, N, hbig (by omega), ⟨fun hn => ?_, fun hl => absurd hl hlt⟩, fun _ => ⟨rfl, ?_, ?_⟩⟩
    · rw [size_t_of_neg_one] at hn
      exact absurd hn hN
    · exact List.take_left' himg
    · exact List.drop_left' himg

theorem stateBytes_length {w : Nat} (e : RDigester w) :
    e.stateBytes.length = requiredSize w e.alg := by
  obtain ⟨alg, ctx⟩ := e
  cases alg
  · exact md5_bytes_length ctx
  · exact sha1_bytes_length ctx
  · exact sha256_bytes_length ctx
  · exact sha512_bytes_length ctx
  · rfl

/-- With enough capacity the public `serialize` leaves the wire image of the state at the
start of the buffer, zeroes up to the capacity, and returns the required size. -/
theorem serialize_of_ge {w : Nat} (e : RDigester w) (dst : List Byte) (dstSize : Nat)
    (h1 : requiredSize w e.alg ≤ dstSize) (h2 : dstSize ≤ dst.length) :
    e.serialize dst dstSize =
      some (e, e.stateBytes ++ (List.replicate (dstSize - requiredSize w e.alg) 0 ++
        dst.drop dstSize), requiredSize w e.alg) := by
  have hz : (List.replicate dstSize (0 : Byte) ++ dst.drop dstSize).length = dst.length := by
    simp; omega
  have hd : ∀ n, n ≤ dstSize → (List.replicate dstSize (0 : Byte) ++ dst.drop dstSize).drop n =
      List.replicate (dstSize - n) 0 ++ dst.drop dstSize := by
    intro n hn
    rw [List.drop_append_of_le_length (by simpa using hn), List.drop_replicate]
  obtain ⟨alg, ctx⟩ := e
  cases alg <;> simp only [requiredSize] at h1 <;>
    simp only [RDigester.serialize, sizeof_uchar, Nat.one_mul, memset_eq _ _ _ h2,
      Option.bind_eq_bind, Option.some_bind, requiredSize, RDigester.stateBytes]
  · rw [serializeMd5Ctx_eq _ _ _ h1 (by rw [hz]; exact h2), hd _ h1]
    simp [MD5_CTX.bytes]
  · rw [serializeSha1Ctx_eq _ _ _ h1 (by rw [hz]; exact h2), hd _ h1]
    simp [SHA_CTX.bytes]
  · rw [serializeSha256Ctx_eq _ _ _ h1 (by rw [hz]; exact h2), hd _ h1]
    simp [SHA256_CTX.bytes]
  · rw [serializeSha512Ctx_eq _ _ _ h1 (by rw [hz]; exact h2), hd _ h1]
    simp [SHA512_CTX.bytes]
  · simp

/-- Below the required size the public `serialize` has zeroed the buffer up to the capacity
and returns `(size_t)-1`. -/
theorem serialize_of_lt {w : Nat} (e : RDigester w) (dst : List Byte) (dstSize : Nat)
    (h1 : dstSize < requiredSize w e.alg) (h2 : dstSize ≤ dst.length) :
    e.serialize dst dstSize =
      some (e, List.replicate dstSize 0 ++ dst.drop dstSize, size_t_of (-1)) := by
  obtain ⟨alg, ctx⟩ := e
  cases alg <;> simp only [requiredSize] at h1 <;>
    simp only [RDigester.serialize, sizeof_uchar, Nat.one_mul, memset_eq _ _ _ h2,
      Option.bind_eq_bind, Option.some_bind]
  · rw [serializeMd5Ctx_small _ _ _ h1]; rfl
  · rw [serializeSha1Ctx_small _ _ _ h1]; rfl
  · rw [serializeSha256Ctx_small _ _ _ h1]; rfl
  · rw [serializeSha512Ctx_small _ _ _ h1]; rfl
  · omega

/-- The public `serialize` never changes the engine. -/
theorem serialize_fst {w : Nat} (e : RDigester w) (dst : List Byte) (dstSize : Nat)
    (r : RDigester w × List Byte × Nat) (h : e.serialize dst dstSize = some r) : r.1 = e := by
  by_cases h2 : dstSize ≤ dst.length
  · by_cases h1 : requiredSize w e.alg ≤ dstSize
    · rw [serialize_of_ge e dst dstSize h1 h2] at h
      rw [← Option.some.inj h]
    · rw [serialize_of_lt e dst dstSize (by omega) h2] at h
      rw [← Option.some.inj h]
  · have : e.serialize dst dstSize = none := by
      unfold RDigester.serialize memset
      simp [h2]
    rw [this] at h
    cases h

theorem digest_length {w : Nat} (lib : CryptoLib w) (e : RDigester w) :
    (e.digest lib).length = digestLength e.alg := by
  obtain ⟨alg, ctx⟩ := e
  cases alg <;> simp [RDigester.digest, digestLength]

/-- The string `finalChecksumHex` returns is the hexadecimal rendering of the digest. -/
theorem finalChecksumHex_fst {w : Nat} (lib : CryptoLib w) (e : RDigester w) :
    (e.finalChecksumHex lib).map Prod.fst = some (hexString (e.digest lib)) := by
  have key : ∀ (n : Nat) (d : Bytes n), 2 * n ≤ 2147483647 →
      toHex d.val (n : Nat) = some (hexString d.val) := by
    intro n d hn
    have := toHex_eq_hexString d.val (by rw [d.property]; exact hn)
    rwa [d.property] at this
  obtain ⟨alg, ctx⟩ := e
  cases alg <;> simp only [RDigester.finalChecksumHex, RDigester.digest]
  · rw [key _ _ (by decide)]; rfl
  · rw [key _ _ (by decide)]; rfl
  · rw [key _ _ (by decide)]; rfl
  · rw [key _ _ (by decide)]; rfl
  · rfl

/-! ## The claims -/

/-- C1: for each of the four algorithms and every state, serializing the state into a buffer
of at least the required size and deserializing that buffer with the same algorithm's
deserializer gives back the state, equal in every field. -/
theorem serialize_deserialize_roundtrip {w : Nat} (dst : List Byte) (dstSize : Nat)
    (h : dstSize ≤ dst.length) (c5 : MD5_CTX) (c1 : SHA_CTX) (c256 : SHA256_CTX)
    (c512 : SHA512_CTX w) :
    (92 ≤ dstSize → ∃ buf, serializeMd5Ctx dst dstSize c5 = some (buf, 92) ∧
      deserializeMd5Ctx buf = some c5) ∧
    (96 ≤ dstSize → ∃ buf, serializeSha1Ctx dst dstSize c1 = some (buf, 96) ∧
      deserializeSha1Ctx buf = some c1) ∧
    (112 ≤ dstSize → ∃ buf, serializeSha256Ctx dst dstSize c256 = some (buf, 112) ∧
      deserializeSha256Ctx buf = some c256) ∧
    (328 + 2 * w ≤ dstSize → ∃ buf,
      serializeSha512Ctx dst dstSize c512 = some (buf, 328 + 2 * w) ∧
      deserializeSha512Ctx w buf = some c512) := by
  refine ⟨?_, ?_, ?_, ?_⟩
  · intro hcap
    exact ⟨_, serializeMd5Ctx_eq dst dstSize c5 hcap h, deserializeMd5Ctx_eq _ _ _ _ _ _ _ _ _⟩
  · intro hcap
    exact ⟨_, serializeSha1Ctx_eq dst dstSize c1 hcap h,
      deserializeSha1Ctx_eq _ _ _ _ _ _ _ _ _ _⟩
  · intro hcap
    exact ⟨_, serializeSha256Ctx_eq dst dstSize c256 hcap h,
      deserializeSha256Ctx_eq _ _ _ _ _ _ _⟩
  · intro hcap
    exact ⟨_, serializeSha512Ctx_eq dst dstSize c512 hcap h,
      deserializeSha512Ctx_eq _ _ _ _ _ _ _ _⟩

/-- C1 at a buffer of 400 bytes and the four sample contexts. -/
theorem serialize_deserialize_roundtrip_witness :
    (∃ buf, serializeMd5Ctx (List.replicate 400 7) 400 md5Sample = some (buf, 92) ∧
      deserializeMd5Ctx buf = some md5Sample) ∧
    (∃ buf, serializeSha1Ctx (List.replicate 400 7) 400 sha1Sample = some (buf, 96) ∧
      deserializeSha1Ctx buf = some sha1Sample) ∧
    (∃ buf, serializeSha256Ctx (List.replicate 400 7) 400 sha256Sample = some (buf, 112) ∧
      deserializeSha256Ctx buf = some sha256Sample) ∧
    (∃ buf, serializeSha512Ctx (List.replicate 400 7) 400 sha512Sample = some (buf, 344) ∧
      deserializeSha512Ctx 8 buf = some sha512Sample) :=
  have t := serialize_deserialize_roundtrip (List.replicate 400 7) 400
    (by rw [List.length_replicate]) md5Sample sha1Sample sha256Sample sha512Sample
  ⟨t.1 (by decide), t.2.1 (by decide), t.2.2.1 (by decide), t.2.2.2 (by decide)⟩

/-- The engine after a sequence of calls whose exports stay within their buffers is the
engine after the `update` calls alone. -/
theorem runCalls_eq {w : Nat} (lib : CryptoLib w) (calls : List Call) (e : RDigester w)
    (hb : ∀ c ∈ calls, c.inBounds) :
    runCalls lib e calls = some ((updatesOf calls).foldl (fun e d => e.update lib d) e) := by
  induction calls generalizing e with
  | nil => rfl
  | cons c cs ih =>
    have hc := hb c (List.mem_cons_self c cs)
    have hcs : ∀ c' ∈ cs, c'.inBounds := fun c' h' => hb c' (List.mem_cons_of_mem c h')
    cases c with
    | update data =>
      simp only [runCalls, List.foldlM_cons, runCall, Option.bind_eq_bind, Option.some_bind,
        updatesOf, List.foldl_cons]
      exact ih _ hcs
    | serialize dst dstSize =>
      have hser : (e.serialize dst dstSize).map Prod.fst = some e := by
        by_cases h1 : requiredSize w e.alg ≤ dstSize
        · rw [serialize_of_ge e dst dstSize h1 hc]; rfl
        · rw [serialize_of_lt e dst dstSize (by omega) hc]; rfl
      simp only [runCalls, List.foldlM_cons, runCall, hser, Option.bind_eq_bind,
        Option.some_bind, updatesOf]
      exact ih _ hcs

/-- C4: `serialize` leaves the engine, its tag and its state, as it was, whether it succeeds
or reports a small capacity; exports that stay within their buffers, inserted anywhere
between `update` calls, change neither the engine nor the digest `finalChecksumHex` returns
later; two exports with the same capacity return the same number and fill the first
`dstSize` bytes of their buffers alike. -/
theorem export_does_not_mutate {w : Nat} (lib : CryptoLib w) (e : RDigester w)
    (calls : List Call) (dst dst' : List Byte) (dstSize : Nat) :
    (∀ r, e.serialize dst dstSize = some r → r.1 = e ∧ r.1.alg = e.alg) ∧
    ((∀ c ∈ calls, c.inBounds) →
      runCalls lib e calls = some ((updatesOf calls).foldl (fun e d => e.update lib d) e) ∧
      (runCalls lib e calls).bind (RDigester.finalChecksumHex lib) =
        ((updatesOf calls).foldl (fun e d => e.update lib d) e).finalChecksumHex lib) ∧
    (dstSize ≤ dst.length → dstSize ≤ dst'.length → ∃ buf buf' n,
      e.serialize dst dstSize = some (e, buf, n) ∧
      e.serialize dst' dstSize = some (e, buf', n) ∧
      buf.take dstSize = buf'.take dstSize ∧
      (dst.length = dst'.length → buf.length = buf'.length)) := by
  refine ⟨?_, ?_, ?_⟩
  · intro r hr
    have := serialize_fst e dst dstSize r hr
    exact ⟨this, by rw [this]⟩
  · intro hb
    rw [runCalls_eq lib calls e hb]
    exact ⟨rfl, rfl⟩
  · intro h2 h2'
    by_cases h1 : requiredSize w e.alg ≤ dstSize
    · refine ⟨_, _, _, serialize_of_ge e dst dstSize h1 h2,
        serialize_of_ge e dst' dstSize h1 h2', ?_, ?_⟩
      · have hl : (e.stateBytes ++ List.replicate (dstSize - requiredSize w e.alg) 0).length =
            dstSize := by
          rw [List.length_append, stateBytes_length, List.length_replicate]; omega
        rw [← List.append_assoc, ← List.append_assoc, List.take_left' hl, List.take_left' hl]
      · intro hlen
        simp only [List.length_append, List.length_replicate, List.length_drop, hlen]
    · have h1' : dstSize < requiredSize w e.alg := by omega
      refine ⟨_, _, _, serialize_of_lt e dst dstSize h1' h2,
        serialize_of_lt e dst' dstSize h1' h2', ?_, ?_⟩
      · rw [List.take_left' (List.length_replicate _ _),
          List.take_left' (List.length_replicate _ _)]
      · intro hlen
        simp only [List.length_append, List.length_replicate, List.length_drop, hlen]

/-- C5: for each of the four algorithms, every state and every capacity `dstSize` of the
buffer, the serializer returns the failure value `(size_t)-1` exactly when `dstSize` is
smaller than the required size; otherwise it returns the number of bytes it has written,
the required size, which is not the failure value. -/
theorem serialize_capacity_check {w : Nat} (dst : List Byte) (dstSize : Nat)
    (h : dstSize ≤ dst.length) (c5 : MD5_CTX) (c1 : SHA_CTX) (c256 : SHA256_CTX)
    (c512 : SHA512_CTX w) :
    (∃ buf n, serializeMd5Ctx dst dstSize c5 = some (buf, n) ∧
      (n = size_t_of (-1) ↔ dstSize < 92) ∧
      (¬ dstSize < 92 → n = 92 ∧ buf.take 92 = c5.bytes ∧ buf.drop 92 = dst.drop 92)) ∧
    (∃ buf n, serializeSha1Ctx dst dstSize c1 = some (buf, n) ∧
      (n = size_t_of (-1) ↔ dstSize < 96) ∧
      (¬ dstSize < 96 → n = 96 ∧ buf.take 96 = c1.bytes ∧ buf.drop 96 = dst.drop 96)) ∧
    (∃ buf n, serializeSha256Ctx dst dstSize c256 = some (buf, n) ∧
      (n = size_t_of (-1) ↔ dstSize < 112) ∧
      (¬ dstSize < 112 → n = 112 ∧ buf.take 112 = c256.bytes ∧
        buf.drop 112 = dst.drop 112)) ∧
    (∃ buf n, serializeSha512Ctx dst dstSize c512 = some (buf, n) ∧
      (n = size_t_of (-1) ↔ dstSize < 328 + 2 * w) ∧
      (¬ dstSize < 328 + 2 * w → n = 328 + 2 * w ∧ buf.take (328 + 2 * w) = c512.bytes ∧
        buf.drop (328 + 2 * w) = dst.drop (328 + 2 * w))) := by
  refine ⟨?_, ?_, ?_, ?_⟩
  · refine capacity_cases dst c5.bytes 92 dstSize _ (by decide) (md5_bytes_length c5)
      (serializeMd5Ctx_small dst dstSize c5) (fun hcap => ?_)
    rw [serializeMd5Ctx_eq dst dstSize c5 hcap h]
    simp [MD5_CTX.bytes]
  · refine capacity_cases dst c1.bytes 96 dstSize _ (by decide) (sha1_bytes_length c1)
      (serializeSha1Ctx_small dst dstSize c1) (fun hcap => ?_)
    rw [serializeSha1Ctx_eq dst dstSize c1 hcap h]
    simp [SHA_CTX.bytes]
  · refine capacity_cases dst c256.bytes 112 dstSize _ (by decide) (sha256_bytes_length c256)
      (serializeSha256Ctx_small dst dstSize c256) (fun hcap => ?_)
    rw [serializeSha256Ctx_eq dst dstSize c256 hcap h]
    simp [SHA256_CTX.bytes]
  · refine capacity_cases dst c512.bytes (328 + 2 * w) dstSize _ (by omega) (sha512_bytes_length c512)
      (serializeSha512Ctx_small dst dstSize c512) (fun hcap => ?_)
    rw [serializeSha512Ctx_eq dst dstSize c512 hcap h]
    simp [SHA512_CTX.bytes]

/-- C5 at a buffer of 100 bytes: enough for MD5 and SHA-1, too small for SHA-256 and
SHA-512. -/
theorem serialize_capacity_check_witness :
    (∃ buf n, serializeMd5Ctx (List.replicate 100 7) 100 md5Sample = some (buf, n) ∧
      (n = size_t_of (-1) ↔ 100 < 92) ∧
      (¬ 100 < 92 → n = 92 ∧ buf.take 92 = md5Sample.bytes ∧
        buf.drop 92 = (List.replicate 100 7).drop 92)) ∧
    (∃ buf n, serializeSha1Ctx (List.replicate 100 7) 100 sha1Sample = some (buf, n) ∧
      (n = size_t_of (-1) ↔ 100 < 96) ∧
      (¬ 100 < 96 → n = 96 ∧ buf.take 96 = sha1Sample.bytes ∧
        buf.drop 96 = (List.replicate 100 7).drop 96)) ∧
    (∃ buf n, serializeSha256Ctx (List.replicate 100 7) 100 sha256Sample = some (buf, n) ∧
      (n = size_t_of (-1) ↔ 100 < 112) ∧
      (¬ 100 < 112 → n = 112 ∧ buf.take 112 = sha256Sample.bytes ∧
        buf.drop 112 = (List.replicate 100 7).drop 112)) ∧
    (∃ buf n, serializeSha512Ctx (List.replicate 100 7) 100 sha512Sample = some (buf, n) ∧
      (n = size_t_of (-1) ↔ 100 < 328 + 2 * 8) ∧
      (¬ 100 < 328 + 2 * 8 → n = 328 + 2 * 8 ∧ buf.take (328 + 2 * 8) = sha512Sample.bytes ∧
        buf.drop (328 + 2 * 8) = (List.replicate 100 7).drop (328 + 2 * 8))) :=
  serialize_capacity_check (List.replicate 100 7) 100 (by rw [List.length_replicate])
    md5Sample sha1Sample sha256Sample sha512Sample

/-- C6 as stated fails: an MD5 engine asked to export into the three bytes `1 2 3` with
capacity 3 reports the failure value, and the buffer is `0 0 0` afterwards. -/
theorem serialize_small_capacity_counterexample :
    ((⟨.Md5, md5Sample⟩ : RDigester 8).serialize [1, 2, 3] 3).map (fun r => r.2) =
      some ([0, 0, 0], size_t_of (-1)) ∧
    ((⟨.Md5, md5Sample⟩ : RDigester 8).serialize [1, 2, 3] 3).map (fun r => r.2.1) ≠
      some [1, 2, 3] := by
  rw [serialize_of_lt _ _ _ (by decide) (by decide)]
  exact ⟨rfl, by decide⟩

/-- C6, amended: for every engine, every buffer content and every capacity `dstSize` of the
buffer smaller than the algorithm's required size, the public `serialize` returns the
failure value and leaves the engine and the bytes from index `dstSize` on as they were; it
writes no byte of the state, but the first `dstSize` bytes of the buffer are zero. -/
theorem serialize_small_capacity {w : Nat} (e : RDigester w) (dst : List Byte)
    (dstSize : Nat) (h1 : dstSize < requiredSize w e.alg) (h2 : dstSize ≤ dst.length) :
    ∃ buf, e.serialize dst dstSize = some (e, buf, size_t_of (-1)) ∧
      buf.length = dst.length ∧
      buf.take dstSize = List.replicate dstSize 0 ∧
      buf.drop dstSize = dst.drop dstSize := by
  refine ⟨_, serialize_of_lt e dst dstSize h1 h2, ?_, ?_, ?_⟩
  · simp only [List.length_append, List.length_replicate, List.length_drop]; omega
  · exact List.take_left' (List.length_replicate _ _)
  · exact List.drop_left' (List.length_replicate _ _)

/-- C6, amended, at an MD5 engine and the buffer `1 2 3 4` with capacity 3. -/
theorem serialize_small_capacity_witness :
    ∃ buf, (⟨.Md5, md5Sample⟩ : RDigester 8).serialize [1, 2, 3, 4] 3 =
        some (⟨.Md5, md5Sample⟩, buf, size_t_of (-1)) ∧
      buf.length = ([1, 2, 3, 4] : List Byte).length ∧
      buf.take 3 = List.replicate 3 0 ∧
      buf.drop 3 = ([1, 2, 3, 4] : List Byte).drop 3 :=
  serialize_small_capacity (⟨.Md5, md5Sample⟩ : RDigester 8) [1, 2, 3, 4] 3 (by decide)
    (by decide)

/-- C7 as stated fails for SHA-512: with capacity 228 the export of a SHA-512 engine
reports the failure value; with capacity 344 it returns 344 when the counters `Nl`, `Nh`
take 8 bytes each, and with capacity 336 it returns 336 when they take 4 bytes each. -/
theorem serialize_sha512_size_counterexample :
    ((⟨.Sha512, sha512Sample⟩ : RDigester 8).serialize (List.replicate 228 0) 228).map
      (fun r => r.2.2) = some (size_t_of (-1)) ∧
    ((⟨.Sha512, sha512Sample⟩ : RDigester 8).serialize (List.replicate 344 0) 344).map
      (fun r => r.2.2) = some 344 ∧
    ((⟨.Sha512, SHA512_CTX.zero 4⟩ : RDigester 4).serialize (List.replicate 228 0) 228).map
      (fun r => r.2.2) = some (size_t_of (-1)) ∧
    ((⟨.Sha512, SHA512_CTX.zero 4⟩ : RDigester 4).serialize (List.replicate 336 0) 336).map
      (fun r => r.2.2) = some 336 := by
  rw [serialize_of_lt _ _ _ (by decide) (by rw [List.length_replicate]),
    serialize_of_ge _ _ _ (by decide) (by rw [List.length_replicate]),
    serialize_of_lt _ _ _ (by decide) (by rw [List.length_replicate]),
    serialize_of_ge _ _ _ (by decide) (by rw [List.length_replicate])]
  exact ⟨rfl, rfl, rfl, rfl⟩

/-- C7, amended: for every engine and every capacity of the buffer that is at least the
required size, the number `serialize` returns depends on the algorithm alone: 92 for MD5,
96 for SHA-1, 112 for SHA-256 and, for SHA-512, 328 plus twice the size `w` of a counter
(344 for the 8-byte counters of OpenSSL, 336 for 4-byte counters); the four are pairwise
distinct. -/
theorem serialize_returns_required_size {w : Nat} (e : RDigester w) (dst : List Byte)
    (dstSize : Nat) (h1 : requiredSize w e.alg ≤ dstSize) (h2 : dstSize ≤ dst.length) :
    ∃ buf n, e.serialize dst dstSize = some (e, buf, n) ∧
      n = requiredSize w e.alg ∧
      (e.alg = .Md5 → n = 92) ∧ (e.alg = .Sha1 → n = 96) ∧ (e.alg = .Sha256 → n = 112) ∧
      (e.alg = .Sha512 → n = 328 + 2 * w) ∧
      (92 ≠ 96 ∧ 92 ≠ 112 ∧ 92 ≠ 328 + 2 * w ∧ 96 ≠ 112 ∧ 96 ≠ 328 + 2 * w ∧
        112 ≠ 328 + 2 * w) := by
  refine ⟨_, _, serialize_of_ge e dst dstSize h1 h2, rfl, ?_, ?_, ?_, ?_, ?_⟩
  · intro ha; rw [ha]; rfl
  · intro ha; rw [ha]; rfl
  · intro ha; rw [ha]; rfl
  · intro ha; rw [ha]; rfl
  · omega

/-- C7, amended, at a SHA-512 engine with 8-byte counters and a buffer of 400 bytes. -/
theorem serialize_returns_required_size_witness :
    ∃ buf n, (⟨.Sha512, sha512Sample⟩ : RDigester 8).serialize (List.replicate 400 0) 400 =
        some (⟨.Sha512, sha512Sample⟩, buf, n) ∧
      n = requiredSize 8 .Sha512 ∧
      (ChecksumAlg.Sha512 = .Md5 → n = 92) ∧ (ChecksumAlg.Sha512 = .Sha1 → n = 96) ∧
      (ChecksumAlg.Sha512 = .Sha256 → n = 112) ∧
      (ChecksumAlg.Sha512 = .Sha512 → n = 328 + 2 * 8) ∧
      (92 ≠ 96 ∧ 92 ≠ 112 ∧ 92 ≠ 328 + 2 * 8 ∧ 96 ≠ 112 ∧ 96 ≠ 328 + 2 * 8 ∧
        112 ≠ 328 + 2 * 8) :=
  serialize_returns_required_size (⟨.Sha512, sha512Sample⟩ : RDigester 8)
    (List.replicate 400 0) 400 (by decide) (by rw [List.length_replicate])

/-- C8: with enough capacity the bytes a serializer writes are the fields of the state one
after the other, without gaps, each as it lies in memory: MD5 `A B C D Nl Nh data num` at
offsets 0, 4, 8, 12, 16, 20, 24, 88; SHA-1 `h0 .. h4 Nl Nh data num` at offsets 0, 4, 8, 12,
16, 20, 24, 28, 92; SHA-256 `h Nl Nh data num md_len` at offsets 0, 32, 36, 40, 104, 108;
SHA-512 `h Nl Nh`, the block buffer as `u.d`, the block buffer as `u.p`, `num`, `md_len`. -/
theorem serialized_layout {w : Nat} (dst : List Byte) (dstSize : Nat)
    (h : dstSize ≤ dst.length) (c5 : MD5_CTX) (c1 : SHA_CTX) (c256 : SHA256_CTX)
    (c512 : SHA512_CTX w) :
  (92 ≤ dstSize → ∃ buf, serializeMd5Ctx dst dstSize c5 = some (buf, 92) ∧
    buf = c5.A.val ++ (c5.B.val ++ (c5.C.val ++ (c5.D.val ++ (c5.Nl.val ++ (c5.Nh.val ++
      (c5.data.val ++ (c5.num.val ++ (dst.drop 92)))))))) ∧
    (buf.drop 0).take 4 = c5.A.val ∧
    (buf.drop 4).take 4 = c5.B.val ∧
    (buf.drop 8).take 4 = c5.C.val ∧
    (buf.drop 12).take 4 = c5.D.val ∧
    (buf.drop 16).take 4 = c5.Nl.val ∧
    (buf.drop 20).take 4 = c5.Nh.val ∧
    (buf.drop 24).take 64 = c5.data.val ∧
    (buf.drop 88).take 4 = c5.num.val) ∧
  (96 ≤ dstSize → ∃ buf, serializeSha1Ctx dst dstSize c1 = some (buf, 96) ∧
    buf = c1.h0.val ++ (c1.h1.val ++ (c1.h2.val ++ (c1.h3.val ++ (c1.h4.val ++ (c1.Nl.val ++
      (c1.Nh.val ++ (c1.data.val ++ (c1.num.val ++ (dst.drop 96))))))))) ∧
    (buf.drop 0).take 4 = c1.h0.val ∧
    (buf.drop 4).take 4 = c1.h1.val ∧
    (buf.drop 8).take 4 = c1.h2.val ∧
    (buf.drop 12).take 4 = c1.h3.val ∧
    (buf.drop 16).take 4 = c1.h4.val ∧
    (buf.drop 20).take 4 = c1.Nl.val ∧
    (buf.drop 24).take 4 = c1.Nh.val ∧
    (buf.drop 28).take 64 = c1.data.val ∧
    (buf.drop 92).take 4 = c1.num.val) ∧
  (112 ≤ dstSize → ∃ buf, serializeSha256Ctx dst dstSize c256 = some (buf, 112) ∧
    buf = c256.h.val ++ (c256.Nl.val ++ (c256.Nh.val ++ (c256.data.val ++ (c256.num.val ++
      (c256.md_len.val ++ (dst.drop 112)))))) ∧
    (buf.drop 0).take 32 = c256.h.val ∧
    (buf.drop 32).take 4 = c256.Nl.val ∧
    (buf.drop 36).take 4 = c256.Nh.val ∧
    (buf.drop 40).take 64 = c256.data.val ∧
    (buf.drop 104).take 4 = c256.num.val ∧
    (buf.drop 108).take 4 = c256.md_len.val) ∧
  (328 + 2 * w ≤ dstSize → ∃ buf, serializeSha512Ctx dst dstSize c512 = some (buf, 328 + 2 * w) ∧
    buf = c512.h.val ++ (c512.Nl.val ++ (c512.Nh.val ++ (c512.u.val ++ (c512.u.val ++ (c512.num.val
      ++ (c512.md_len.val ++ (dst.drop (328 + 2 * w))))))))) := by
  refine ⟨?_, ?_, ?_, ?_⟩
  · intro hcap
    refine ⟨_, serializeMd5Ctx_eq dst dstSize c5 hcap h, rfl, ?_, ?_, ?_, ?_, ?_, ?_, ?_, ?_⟩
    · have t := take_drop_at
        ([]) c5.A.val
        (c5.B.val ++ (c5.C.val ++ (c5.D.val ++ (c5.Nl.val ++ (c5.Nh.val ++ (c5.data.val ++
          (c5.num.val ++ (dst.drop 92)))))))) 0 4
        (by simp only [List.length_append, List.length_nil, Bytes.length_val])
        (Bytes.length_val _)
      simpa only [List.nil_append, List.append_assoc] using t
    · have t := take_drop_at
        (c5.A.val) c5.B.val
        (c5.C.val ++ (c5.D.val ++ (c5.Nl.val ++ (c5.Nh.val ++ (c5.data.val ++ (c5.num.val ++
          (dst.drop 92))))))) 4 4
        (by simp only [List.length_append, List.length_nil, Bytes.length_val])
        (Bytes.length_val _)
      simpa only [List.nil_append, List.append_assoc] using t
    · have t := take_drop_at
        (c5.A.val ++ c5.B.val) c5.C.val
        (c5.D.val ++ (c5.Nl.val ++ (c5.Nh.val ++ (c5.data.val ++ (c5.num.val ++ (dst.drop
          92)))))) 8 4
        (by simp only [List.length_append, List.length_nil, Bytes.length_val])
        (Bytes.length_val _)
      simpa only [List.nil_append, List.append_assoc] using t
    · have t := take_drop_at
        (c5.A.val ++ c5.B.val ++ c5.C.val) c5.D.val
        (c5.Nl.val ++ (c5.Nh.val ++ (c5.data.val ++ (c5.num.val ++ (dst.drop 92))))) 12 4
        (by simp only [List.length_append, List.length_nil, Bytes.length_val])
        (Bytes.length_val _)
      simpa only [List.nil_append, List.append_assoc] using t
    · have t := take_drop_at
        (c5.A.val ++ c5.B.val ++ c5.C.val ++ c5.D.val) c5.Nl.val
        (c5.Nh.val ++ (c5.data.val ++ (c5.num.val ++ (dst.drop 92)))) 16 4
        (by simp only [List.length_append, List.length_nil, Bytes.length_val])
        (Bytes.length_val _)
      simpa only [List.nil_append, List.append_assoc] using t
    · have t := take_drop_at
        (c5.A.val ++ c5.B.val ++ c5.C.val ++ c5.D.val ++ c5.Nl.val) c5.Nh.val
        (c5.data.val ++ (c5.num.val ++ (dst.drop 92))) 20 4
        (by simp only [List.length_append, List.length_nil, Bytes.length_val])
        (Bytes.length_val _)
      simpa only [List.nil_append, List.append_assoc] using t
    · have t := take_drop_at
        (c5.A.val ++ c5.B.val ++ c5.C.val ++ c5.D.val ++ c5.Nl.val ++ c5.Nh.val) c5.data.val
        (c5.num.val ++ (dst.drop 92)) 24 64
        (by simp only [List.length_append, List.length_nil, Bytes.length_val])
        (Bytes.length_val _)
      simpa only [List.nil_append, List.append_assoc] using t
    · have t := take_drop_at
        (c5.A.val ++ c5.B.val ++ c5.C.val ++ c5.D.val ++ c5.Nl.val ++ c5.Nh.val ++ c5.data.val) c5.num.val
        (dst.drop 92) 88 4
        (by simp only [List.length_append, List.length_nil, Bytes.length_val])
        (Bytes.length_val _)
      simpa only [List.nil_append, List.append_assoc] using t
  · intro hcap
    refine ⟨_, serializeSha1Ctx_eq dst dstSize c1 hcap h, rfl, ?_, ?_, ?_, ?_, ?_, ?_, ?_, ?_, ?_⟩
    · have t := take_drop_at
        ([]) c1.h0.val
        (c1.h1.val ++ (c1.h2.val ++ (c1.h3.val ++ (c1.h4.val ++ (c1.Nl.val ++ (c1.Nh.val ++
          (c1.data.val ++ (c1.num.val ++ (dst.drop 96))))))))) 0 4
        (by simp only [List.length_append, List.length_nil, Bytes.length_val])
        (Bytes.length_val _)
      simpa only [List.nil_append, List.append_assoc] using t
    · have t := take_drop_at
        (c1.h0.val) c1.h1.val
        (c1.h2.val ++ (c1.h3.val ++ (c1.h4.val ++ (c1.Nl.val ++ (c1.Nh.val ++ (c1.data.val ++
          (c1.num.val ++ (dst.drop 96)))))))) 4 4
        (by simp only [List.length_append, List.length_nil, Bytes.length_val])
        (Bytes.length_val _)
      simpa only [List.nil_append, List.append_assoc] using t
    · have t := take_drop_at
        (c1.h0.val ++ c1.h1.val) c1.h2.val
        (c1.h3.val ++ (c1.h4.val ++ (c1.Nl.val ++ (c1.Nh.val ++ (c1.data.val ++ (c1.num.val ++
          (dst.drop 96))))))) 8 4
        (by simp only [List.length_append, List.length_nil, Bytes.length_val])
        (Bytes.length_val _)
      simpa only [List.nil_append, List.append_assoc] using t
    · have t := take_drop_at
        (c1.h0.val ++ c1.h1.val ++ c1.h2.val) c1.h3.val
        (c1.h4.val ++ (c1.Nl.val ++ (c1.Nh.val ++ (c1.data.val ++ (c1.num.val ++ (dst.drop
          96)))))) 12 4
        (by simp only [List.length_append, List.length_nil, Bytes.length_val])
        (Bytes.length_val _)
      simpa only [List.nil_append, List.append_assoc] using t
    · have t := take_drop_at
        (c1.h0.val ++ c1.h1.val ++ c1.h2.val ++ c1.h3.val) c1.h4.val
        (c1.Nl.val ++ (c1.Nh.val ++ (c1.data.val ++ (c1.num.val ++ (dst.drop 96))))) 16 4
        (by simp only [List.length_append, List.length_nil, Bytes.length_val])
        (Bytes.length_val _)
      simpa only [List.nil_append, List.append_assoc] using t
    · have t := take_drop_at
        (c1.h0.val ++ c1.h1.val ++ c1.h2.val ++ c1.h3.val ++ c1.h4.val) c1.Nl.val
        (c1.Nh.val ++ (c1.data.val ++ (c1.num.val ++ (dst.drop 96)))) 20 4
        (by simp only [List.length_append, List.length_nil, Bytes.length_val])
        (Bytes.length_val _)
      simpa only [List.nil_append, List.append_assoc] using t
    · have t := take_drop_at
        (c1.h0.val ++ c1.h1.val ++ c1.h2.val ++ c1.h3.val ++ c1.h4.val ++ c1.Nl.val) c1.Nh.val
        (c1.data.val ++ (c1.num.val ++ (dst.drop 96))) 24 4
        (by simp only [List.length_append, List.length_nil, Bytes.length_val])
        (Bytes.length_val _)
      simpa only [List.nil_append, List.append_assoc] using t
    · have t := take_drop_at
        (c1.h0.val ++ c1.h1.val ++ c1.h2.val ++ c1.h3.val ++ c1.h4.val ++ c1.Nl.val ++
          c1.Nh.val) c1.data.val
        (c1.num.val ++ (dst.drop 96)) 28 64
        (by simp only [List.length_append, List.length_nil, Bytes.length_val])
        (Bytes.length_val _)
      simpa only [List.nil_append, List.append_assoc] using t
    · have t := take_drop_at
        (c1.h0.val ++ c1.h1.val ++ c1.h2.val ++ c1.h3.val ++ c1.h4.val ++ c1.Nl.val ++
          c1.Nh.val ++ c1.data.val) c1.num.val
        (dst.drop 96) 92 4
        (by simp only [List.length_append, List.length_nil, Bytes.length_val])
        (Bytes.length_val _)
      simpa only [List.nil_append, List.append_assoc] using t
  · intro hcap
    refine ⟨_, serializeSha256Ctx_eq dst dstSize c256 hcap h, rfl, ?_, ?_, ?_, ?_, ?_, ?_⟩
    · have t := take_drop_at
        ([]) c256.h.val
        (c256.Nl.val ++ (c256.Nh.val ++ (c256.data.val ++ (c256.num.val ++ (c256.md_len.val ++
          (dst.drop 112)))))) 0 32
        (by simp only [List.length_append, List.length_nil, Bytes.length_val])
        (Bytes.length_val _)
      simpa only [List.nil_append, List.append_assoc] using t
    · have t := take_drop_at
        (c256.h.val) c256.Nl.val
        (c256.Nh.val ++ (c256.data.val ++ (c256.num.val ++ (c256.md_len.val ++ (dst.drop
          112))))) 32 4
        (by simp only [List.length_append, List.length_nil, Bytes.length_val])
        (Bytes.length_val _)
      simpa only [List.nil_append, List.append_assoc] using t
    · have t := take_drop_at
        (c256.h.val ++ c256.Nl.val) c256.Nh.val
        (c256.data.val ++ (c256.num.val ++ (c256.md_len.val ++ (dst.drop 112)))) 36 4
        (by simp only [List.length_append, List.length_nil, Bytes.length_val])
        (Bytes.length_val _)
      simpa only [List.nil_append, List.append_assoc] using t
    · have t := take_drop_at
        (c256.h.val ++ c256.Nl.val ++ c256.Nh.val) c256.data.val
        (c256.num.val ++ (c256.md_len.val ++ (dst.drop 112))) 40 64
        (by simp only [List.length_append, List.length_nil, Bytes.length_val])
        (Bytes.length_val _)
      simpa only [List.nil_append, List.append_assoc] using t
    · have t := take_drop_at
        (c256.h.val ++ c256.Nl.val ++ c256.Nh.val ++ c256.data.val) c256.num.val
        (c256.md_len.val ++ (dst.drop 112)) 104 4
        (by simp only [List.length_append, List.length_nil, Bytes.length_val])
        (Bytes.length_val _)
      simpa only [List.nil_append, List.append_assoc] using t
    · have t := take_drop_at
        (c256.h.val ++ c256.Nl.val ++ c256.Nh.val ++ c256.data.val ++ c256.num.val) c256.md_len.val
        (dst.drop 112) 108 4
        (by simp only [List.length_append, List.length_nil, Bytes.length_val])
        (Bytes.length_val _)
      simpa only [List.nil_append, List.append_assoc] using t
  · intro hcap
    exact ⟨_, serializeSha512Ctx_eq dst dstSize c512 hcap h, rfl⟩

/-- C8 at a buffer of 400 bytes and the four sample contexts: the layout of MD5. -/
theorem serialized_layout_witness :
    ∃ buf, serializeMd5Ctx (List.replicate 400 7) 400 md5Sample = some (buf, 92) ∧
    buf = md5Sample.A.val ++ (md5Sample.B.val ++ (md5Sample.C.val ++ (md5Sample.D.val ++
      (md5Sample.Nl.val ++ (md5Sample.Nh.val ++ (md5Sample.data.val ++ (md5Sample.num.val ++
        ((List.replicate 400 7).drop 92)))))))) ∧
    (buf.drop 0).take 4 = md5Sample.A.val ∧
    (buf.drop 4).take 4 = md5Sample.B.val ∧
    (buf.drop 8).take 4 = md5Sample.C.val ∧
    (buf.drop 12).take 4 = md5Sample.D.val ∧
    (buf.drop 16).take 4 = md5Sample.Nl.val ∧
    (buf.drop 20).take 4 = md5Sample.Nh.val ∧
    (buf.drop 24).take 64 = md5Sample.data.val ∧
    (buf.drop 88).take 4 = md5Sample.num.val :=
  (serialized_layout (w := 8) (List.replicate 400 7) 400 (by rw [List.length_replicate])
    md5Sample sha1Sample sha256Sample sha512Sample).1 (by decide)

/-- C9 as stated fails: for a sequence of 1073741824 bytes, `len * 2` is not an `int`, and
`toHex` returns no string. -/
theorem toHex_overflow_counterexample :
    (List.replicate 1073741824 (0 : Byte)).length = 1073741824 ∧
    toHex (List.replicate 1073741824 0) 1073741824 = none := by
  refine ⟨List.length_replicate _ _, ?_⟩
  unfold toHex
  rw [if_pos (Or.inr (by unfold INT_MAX; decide))]

/-- C9, amended: for every byte sequence `data` of length `len` with `len * 2` at most
`INT_MAX` (2147483647), `toHex(data, len)` is a string of exactly `2 * len` characters, each
one of `0`-`9`, `a`-`f`, in which the characters `2 * i` and `2 * i + 1` are the digits of
the high and of the low nibble of `data[i]`; decoding it as base-16 pairs gives `data`. -/
theorem toHex_spec (data : List Byte) (h : 2 * data.length ≤ 2147483647) :
    ∃ s, toHex data (data.length : Nat) = some s ∧
      s.length = 2 * data.length ∧
      (∀ c ∈ s, isLowerHex c) ∧
      (∀ (i : Nat) (hi : i < data.length),
        s[2 * i]? = some (hexmap.getD (data[i].val / 16) ' ') ∧
        s[2 * i + 1]? = some (hexmap.getD (data[i].val % 16) ' ')) ∧
      unhex s = some data :=
  ⟨hexString data, toHex_eq_hexString data h, hexString_length data,
    hexString_isLowerHex data, hexString_getElem data, unhex_hexString data⟩

/-- C9, amended, at the four bytes `00 ff 10 ab`. -/
theorem toHex_spec_witness :
    ∃ s, toHex [0, 255, 16, 171] (([0, 255, 16, 171] : List Byte).length : Nat) = some s ∧
      s.length = 2 * ([0, 255, 16, 171] : List Byte).length ∧
      (∀ c ∈ s, isLowerHex c) ∧
      (∀ (i : Nat) (hi : i < ([0, 255, 16, 171] : List Byte).length),
        s[2 * i]? = some (hexmap.getD (([0, 255, 16, 171] : List Byte)[i].val / 16) ' ') ∧
        s[2 * i + 1]? =
          some (hexmap.getD (([0, 255, 16, 171] : List Byte)[i].val % 16) ' ')) ∧
      unhex s = some [0, 255, 16, 171] :=
  toHex_spec [0, 255, 16, 171] (by decide)

/-- C10: for every engine, `finalChecksumHex` returns the hexadecimal rendering of the
digest the library's `Final` leaves, a digest of 16 bytes for MD5, 20 for SHA-1, 32 for
SHA-256 and 64 for SHA-512, hence a string of 32, 40, 64 and 128 characters. -/
theorem finalChecksumHex_length {w : Nat} (lib : CryptoLib w) (e : RDigester w) :
    ∃ rv e', e.finalChecksumHex lib = some (rv, e') ∧
      rv = hexString (e.digest lib) ∧
      (e.alg = .Md5 → (e.digest lib).length = 16 ∧ rv.length = 32) ∧
      (e.alg = .Sha1 → (e.digest lib).length = 20 ∧ rv.length = 40) ∧
      (e.alg = .Sha256 → (e.digest lib).length = 32 ∧ rv.length = 64) ∧
      (e.alg = .Sha512 → (e.digest lib).length = 64 ∧ rv.length = 128) := by
  have hfst := finalChecksumHex_fst lib e
  have hlen := digest_length lib e
  cases hfin : e.finalChecksumHex lib with
  | none => rw [hfin] at hfst; cases hfst
  | some r =>
    rw [hfin] at hfst
    have hr : r.1 = hexString (e.digest lib) := Option.some.inj hfst
    refine ⟨r.1, r.2, rfl, hr, ?_, ?_, ?_, ?_⟩ <;>
    · intro ha
      rw [ha] at hlen
      rw [hr, hexString_length, hlen]
      exact ⟨rfl, rfl⟩

/-! ## Buffers as sequences of fields -/

theorem exists_split (n : Nat) (l : List Byte) (h : n ≤ l.length) :
    ∃ (x : Bytes n) (r : List Byte), l = x.val ++ r ∧ r.length = l.length - n ∧
      r = l.drop n :=
  ⟨⟨l.take n, by rw [List.length_take]; omega⟩, l.drop n, (List.take_append_drop n l).symm,
    List.length_drop n l, rfl⟩

/-- A copy out of a buffer that stays below `N` does not see the bytes from `N` on. -/
theorem memcpyFrom_take {k : Nat} (f : Bytes k) (b : List Byte) (N i n : Nat)
    (h : i + n ≤ N) : memcpyFrom f (b.take N) i n = memcpyFrom f b i n := by
  by_cases hN : N ≤ b.length
  · unfold memcpyFrom
    have e1 : (n ≤ k ∧ i + n ≤ (b.take N).length) ↔ (n ≤ k ∧ i + n ≤ b.length) := by
      rw [List.length_take]; omega
    by_cases hc : n ≤ k ∧ i + n ≤ b.length
    · rw [dif_pos (e1.mpr hc), dif_pos hc]
      simp only [Option.some.injEq]
      apply Subtype.ext
      simp only
      rw [List.drop_take, List.take_take, Nat.min_eq_left (by omega)]
    · rw [dif_neg (fun h' => hc (e1.mp h')), dif_neg hc]
  · rw [List.take_of_length_le (by omega)]

/-- A deserializer's copy fails on a buffer that ends before the copy does. -/
theorem memcpyFrom_short {k : Nat} (f : Bytes k) (b : List Byte) (i n : Nat)
    (h : b.length < i + n) : memcpyFrom f b i n = none := by
  unfold memcpyFrom
  rw [dif_neg (by omega)]

/-- A buffer of at least the required size of Md5 is the bytes of the fields, one after
the other, followed by the rest of the buffer. -/
theorem md5_buffer_split (b : List Byte) (hb : 92 ≤ b.length) :
    ∃ (x0 : Bytes 4) (x1 : Bytes 4) (x2 : Bytes 4) (x3 : Bytes 4) (x4 : Bytes 4)
      (x5 : Bytes 4) (x6 : Bytes 64) (x7 : Bytes 4) (tl : List Byte),
      b = x0.val ++ (x1.val ++ (x2.val ++ (x3.val ++ (x4.val ++ (x5.val ++ (x6.val ++
        (x7.val ++ (tl)))))))) ∧
      tl = b.drop 92 := by
  obtain ⟨x0, r0, e0, l0, d0⟩ := exists_split 4 b (by omega)
  obtain ⟨x1, r1, e1, l1, d1⟩ := exists_split 4 r0 (by omega)
  obtain ⟨x2, r2, e2, l2, d2⟩ := exists_split 4 r1 (by omega)
  obtain ⟨x3, r3, e3, l3, d3⟩ := exists_split 4 r2 (by omega)
  obtain ⟨x4, r4, e4, l4, d4⟩ := exists_split 4 r3 (by omega)
  obtain ⟨x5, r5, e5, l5, d5⟩ := exists_split 4 r4 (by omega)
  obtain ⟨x6, r6, e6, l6, d6⟩ := exists_split 64 r5 (by omega)
  obtain ⟨x7, r7, e7, l7, d7⟩ := exists_split 4 r6 (by omega)
  refine ⟨x0, x1, x2, x3, x4, x5, x6, x7, r7, ?_, ?_⟩
  · rw [← e7, ← e6, ← e5, ← e4, ← e3, ← e2, ← e1, ← e0]
  · rw [d7, d6, d5, d4, d3, d2, d1, d0]
    simp only [List.drop_drop]

/-- A buffer of at least the required size of Sha1 is the bytes of the fields, one after
the other, followed by the rest of the buffer. -/
theorem sha1_buffer_split (b : List Byte) (hb : 96 ≤ b.length) :
    ∃ (x0 : Bytes 4) (x1 : Bytes 4) (x2 : Bytes 4) (x3 : Bytes 4) (x4 : Bytes 4)
      (x5 : Bytes 4) (x6 : Bytes 4) (x7 : Bytes 64) (x8 : Bytes 4) (tl : List Byte),
      b = x0.val ++ (x1.val ++ (x2.val ++ (x3.val ++ (x4.val ++ (x5.val ++ (x6.val ++
        (x7.val ++ (x8.val ++ (tl))))))))) ∧
      tl = b.drop 96 := by
  obtain ⟨x0, r0, e0, l0, d0⟩ := exists_split 4 b (by omega)
  obtain ⟨x1, r1, e1, l1, d1⟩ := exists_split 4 r0 (by omega)
  obtain ⟨x2, r2, e2, l2, d2⟩ := exists_split 4 r1 (by omega)
  obtain ⟨x3, r3, e3, l3, d3⟩ := exists_split 4 r2 (by omega)
  obtain ⟨x4, r4, e4, l4, d4⟩ := exists_split 4 r3 (by omega)
  obtain ⟨x5, r5, e5, l5, d5⟩ := exists_split 4 r4 (by omega)
  obtain ⟨x6, r6, e6, l6, d6⟩ := exists_split 4 r5 (by omega)
  obtain ⟨x7, r7, e7, l7, d7⟩ := exists_split 64 r6 (by omega)
  obtain ⟨x8, r8, e8, l8, d8⟩ := exists_split 4 r7 (by omega)
  refine ⟨x0, x1, x2, x3, x4, x5, x6, x7, x8, r8, ?_, ?_⟩
  · rw [← e8, ← e7, ← e6, ← e5, ← e4, ← e3, ← e2, ← e1, ← e0]
  · rw [d8, d7, d6, d5, d4, d3, d2, d1, d0]
    simp only [List.drop_drop]

/-- A buffer of at least the required size of Sha256 is the bytes of the fields, one after
the other, followed by the rest of the buffer. -/
theorem sha256_buffer_split (b : List Byte) (hb : 112 ≤ b.length) :
    ∃ (x0 : Bytes 32) (x1 : Bytes 4) (x2 : Bytes 4) (x3 : Bytes 64) (x4 : Bytes
      4) (x5 : Bytes 4) (tl : List Byte),
      b = x0.val ++ (x1.val ++ (x2.val ++ (x3.val ++ (x4.val ++ (x5.val ++ (tl)))))) ∧
      tl = b.drop 112 := by
  obtain ⟨x0, r0, e0, l0, d0⟩ := exists_split 32 b (by omega)
  obtain ⟨x1, r1, e1, l1, d1⟩ := exists_split 4 r0 (by omega)
  obtain ⟨x2, r2, e2, l2, d2⟩ := exists_split 4 r1 (by omega)
  obtain ⟨x3, r3, e3, l3, d3⟩ := exists_split 64 r2 (by omega)
  obtain ⟨x4, r4, e4, l4, d4⟩ := exists_split 4 r3 (by omega)
  obtain ⟨x5, r5, e5, l5, d5⟩ := exists_split 4 r4 (by omega)
  refine ⟨x0, x1, x2, x3, x4, x5, r5, ?_, ?_⟩
  · rw [← e5, ← e4, ← e3, ← e2, ← e1, ← e0]
  · rw [d5, d4, d3, d2, d1, d0]
    simp only [List.drop_drop]

/-- A buffer of at least the required size of Sha512 is the bytes of the fields, one after
the other, followed by the rest of the buffer. -/
theorem sha512_buffer_split {w : Nat} (b : List Byte) (hb : 328 + 2 * w ≤ b.length) :
    ∃ (h : Bytes 64) (nl : Bytes w) (nh : Bytes w) (d : Bytes 128) (p : Bytes
      128) (num : Bytes 4) (md : Bytes 4) (tl : List Byte),
      b = h.val ++ (nl.val ++ (nh.val ++ (d.val ++ (p.val ++ (num.val ++ (md.val ++
        (tl))))))) ∧
      tl = b.drop (328 + 2 * w) := by
  obtain ⟨h, r0, e0, l0, d0⟩ := exists_split 64 b (by omega)
  obtain ⟨nl, r1, e1, l1, d1⟩ := exists_split w r0 (by omega)
  obtain ⟨nh, r2, e2, l2, d2⟩ := exists_split w r1 (by omega)
  obtain ⟨d, r3, e3, l3, d3⟩ := exists_split 128 r2 (by omega)
  obtain ⟨p, r4, e4, l4, d4⟩ := exists_split 128 r3 (by omega)
  obtain ⟨num, r5, e5, l5, d5⟩ := exists_split 4 r4 (by omega)
  obtain ⟨md, r6, e6, l6, d6⟩ := exists_split 4 r5 (by omega)
  refine ⟨h, nl, nh, d, p, num, md, r6, ?_, ?_⟩
  · rw [← e6, ← e5, ← e4, ← e3, ← e2, ← e1, ← e0]
  · rw [d6, d5, d4, d3, d2, d1, d0]
    simp only [List.drop_drop]
    congr 1
    omega

/-- `deserializeMd5Ctx` reads the first 92 bytes of its buffer only. -/
theorem deserializeMd5Ctx_take (b : List Byte) :
    deserializeMd5Ctx (b.take 92) = deserializeMd5Ctx b := by
  unfold deserializeMd5Ctx
  simp only [Bytes.sizeof_eq, sizeof_MD5_LONG, MD5_LBLOCK, Nat.zero_add, Nat.reduceMul,
    Nat.reduceAdd, Nat.one_mul]
  have t0 := fun (f : Bytes 4) => memcpyFrom_take f b (92) (0) 4 (by omega)
  have t1 := fun (f : Bytes 4) => memcpyFrom_take f b (92) (4) 4 (by omega)
  have t2 := fun (f : Bytes 4) => memcpyFrom_take f b (92) (8) 4 (by omega)
  have t3 := fun (f : Bytes 4) => memcpyFrom_take f b (92) (12) 4 (by omega)
  have t4 := fun (f : Bytes 4) => memcpyFrom_take f b (92) (16) 4 (by omega)
  have t5 := fun (f : Bytes 4) => memcpyFrom_take f b (92) (20) 4 (by omega)
  have t6 := fun (f : Bytes 64) => memcpyFrom_take f b (92) (24) 64 (by omega)
  have t7 := fun (f : Bytes 4) => memcpyFrom_take f b (92) (88) 4 (by omega)
  simp only [t0, t1, t2, t3, t4, t5, t6, t7]

/-- `deserializeSha1Ctx` reads the first 96 bytes of its buffer only. -/
theorem deserializeSha1Ctx_take (b : List Byte) :
    deserializeSha1Ctx (b.take 96) = deserializeSha1Ctx b := by
  unfold deserializeSha1Ctx
  simp only [Bytes.sizeof_eq, sizeof_SHA_LONG, SHA_LBLOCK, Nat.zero_add, Nat.reduceMul,
    Nat.reduceAdd, Nat.one_mul]
  have t0 := fun (f : Bytes 4) => memcpyFrom_take f b (96) (0) 4 (by omega)
  have t1 := fun (f : Bytes 4) => memcpyFrom_take f b (96) (4) 4 (by omega)
  have t2 := fun (f : Bytes 4) => memcpyFrom_take f b (96) (8) 4 (by omega)
  have t3 := fun (f : Bytes 4) => memcpyFrom_take f b (96) (12) 4 (by omega)
  have t4 := fun (f : Bytes 4) => memcpyFrom_take f b (96) (16) 4 (by omega)
  have t5 := fun (f : Bytes 4) => memcpyFrom_take f b (96) (20) 4 (by omega)
  have t6 := fun (f : Bytes 4) => memcpyFrom_take f b (96) (24) 4 (by omega)
  have t7 := fun (f : Bytes 64) => memcpyFrom_take f b (96) (28) 64 (by omega)
  have t8 := fun (f : Bytes 4) => memcpyFrom_take f b (96) (92) 4 (by omega)
  simp only [t0, t1, t2, t3, t4, t5, t6, t7, t8]

/-- `deserializeSha256Ctx` reads the first 112 bytes of its buffer only. -/
theorem deserializeSha256Ctx_take (b : List Byte) :
    deserializeSha256Ctx (b.take 112) = deserializeSha256Ctx b := by
  unfold deserializeSha256Ctx
  simp only [Bytes.sizeof_eq, sizeof_SHA_LONG, SHA_LBLOCK, Nat.zero_add, Nat.reduceMul,
    Nat.reduceAdd, Nat.one_mul]
  have t0 := fun (f : Bytes 32) => memcpyFrom_take f b (112) (0) 32 (by omega)
  have t1 := fun (f : Bytes 4) => memcpyFrom_take f b (112) (32) 4 (by omega)
  have t2 := fun (f : Bytes 4) => memcpyFrom_take f b (112) (36) 4 (by omega)
  have t3 := fun (f : Bytes 64) => memcpyFrom_take f b (112) (40) 64 (by omega)
  have t4 := fun (f : Bytes 4) => memcpyFrom_take f b (112) (104) 4 (by omega)
  have t5 := fun (f : Bytes 4) => memcpyFrom_take f b (112) (108) 4 (by omega)
  simp only [t0, t1, t2, t3, t4, t5]

/-- `deserializeSha512Ctx` reads the first 328 + 2 * w bytes of its buffer only. -/
theorem deserializeSha512Ctx_take {w : Nat} (b : List Byte) :
    deserializeSha512Ctx w (b.take (328 + 2 * w)) = deserializeSha512Ctx w b := by
  unfold deserializeSha512Ctx
  simp only [Bytes.sizeof_eq, sizeof_SHA_LONG64, SHA_LBLOCK, sizeof_uchar, SHA512_CBLOCK, Nat.zero_add, Nat.reduceMul,
    Nat.reduceAdd, Nat.one_mul]
  have t0 := fun (f : Bytes 64) => memcpyFrom_take f b (328 + 2 * w) (0) 64 (by omega)
  have t1 := fun (f : Bytes w) => memcpyFrom_take f b (328 + 2 * w) (64) w (by omega)
  have t2 := fun (f : Bytes w) => memcpyFrom_take f b (328 + 2 * w) (64 + w) w (by omega)
  have t3 := fun (f : Bytes 128) => memcpyFrom_take f b (328 + 2 * w) (64 + w + w) 128 (by omega)
  have t4 := fun (f : Bytes 128) => memcpyFrom_take f b (328 + 2 * w) (64 + w + w + 128) 128 (by omega)
  have t5 := fun (f : Bytes 4) => memcpyFrom_take f b (328 + 2 * w) (64 + w + w + 128 + 128) 4 (by omega)
  have t6 := fun (f : Bytes 4) => memcpyFrom_take f b (328 + 2 * w) (64 + w + w + 128 + 128 + 4) 4 (by omega)
  simp only [t0, t1, t2, t3, t4, t5, t6]


/-- The string `toHex` returns for an object of `n` bytes. -/
theorem toHex_bytes {n : Nat} (d : Bytes n) (hn : 2 * n ≤ 2147483647) :
    toHex d.val (n : Nat) = some (hexString d.val) := by
  have t := toHex_eq_hexString d.val (by rw [d.property]; exact hn)
  rwa [d.property] at t

theorem requiredSize_ne_failure (w : Nat) (a : ChecksumAlg) :
    requiredSize w a ≠ size_t_of (-1) := by
  rw [size_t_of_neg_one]
  cases a <;> simp only [requiredSize] <;> omega

/-- A field that lies wholly below the end of a `memset` is zeroed. -/
theorem memset0_all {k : Nat} (f : Bytes k) (off n : Nat) (h : off + k ≤ n) :
    f.memset0 off n = Bytes.zero k := by
  apply Subtype.ext
  simp only [Bytes.memset0, Bytes.zero]
  rw [Nat.min_eq_right (by omega), List.drop_eq_nil_of_le (by rw [f.property]; omega),
    List.append_nil]

/-- A field that lies wholly beyond the end of a `memset` is kept. -/
theorem memset0_none {k : Nat} (f : Bytes k) (off n : Nat) (h : n ≤ off) :
    f.memset0 off n = f := by
  apply Subtype.ext
  simp only [Bytes.memset0]
  rw [Nat.sub_eq_zero_of_le h]
  simp

/-- The bytes of a field beyond the end of a `memset` are kept. -/
theorem memset0_drop {k : Nat} (f : Bytes k) (off n : Nat) :
    (f.memset0 off n).val.drop (n - off) = f.val.drop (n - off) := by
  simp only [Bytes.memset0]
  by_cases h : n - off ≤ k
  · rw [Nat.min_eq_left h, List.drop_left' (List.length_replicate _ _)]
  · rw [Nat.min_eq_right (by omega),
      List.drop_eq_nil_of_le (show f.val.length ≤ n - off by rw [f.property]; omega),
      List.append_nil, List.drop_eq_nil_of_le (by rw [List.length_replicate]; omega)]

/-! ## The claims on the engine's life cycle and on the wire format -/

/-- C11 as stated fails: on an MD5 engine of the small library on which `finalChecksumHex`
has been called, `update` changes the state, `serialize` returns 92 and a second
`finalChecksumHex` returns a string of 32 characters; none reports an error. -/
theorem finalize_not_terminal_counterexample :
    ∃ rv e', (⟨.Md5, md5Sample⟩ : RDigester 8).finalChecksumHex (toyLib 8) = some (rv, e') ∧
      (e'.update (toyLib 8) [9]).stateBytes ≠ e'.stateBytes ∧
      (e'.serialize (List.replicate 100 0) 100).map (fun r => r.2.2) = some 92 ∧
      (e'.finalChecksumHex (toyLib 8)).map (fun r => r.1.length) = some 32 := by
  refine ⟨_, ⟨.Md5, MD5_CTX.zero⟩, rfl, by decide, ?_, rfl⟩
  rw [serialize_of_ge _ _ _ (by decide) (by rw [List.length_replicate])]
  rfl

/-- C11, amended: `finalChecksumHex` leaves an engine with the same tag and the context the
library's `Final` left behind, and the engine keeps no record of the call.  Every later call
executes as on any engine and reports no error: `update` hands the data to the library's
`Update` on that context, `serialize` with enough capacity returns the required size, which
is not the failure value, and writes the state, `finalChecksumHex` returns the rendering of
a digest.  The engine has no terminal state. -/
theorem finalize_not_terminal {w : Nat} (lib : CryptoLib w) (e : RDigester w)
    (data dst : List Byte) (dstSize : Nat) (h1 : requiredSize w e.alg ≤ dstSize)
    (h2 : dstSize ≤ dst.length) :
    (∀ ctx : MD5_CTX,
      RDigester.finalChecksumHex lib (⟨.Md5, ctx⟩ : RDigester w) =
        some (hexString (lib.MD5_Final ctx).1.val, ⟨.Md5, (lib.MD5_Final ctx).2⟩) ∧
      RDigester.update lib (⟨.Md5, (lib.MD5_Final ctx).2⟩ : RDigester w) data =
        ⟨.Md5, lib.MD5_Update (lib.MD5_Final ctx).2 data⟩) ∧
    (∀ ctx : SHA_CTX,
      RDigester.finalChecksumHex lib (⟨.Sha1, ctx⟩ : RDigester w) =
        some (hexString (lib.SHA1_Final ctx).1.val, ⟨.Sha1, (lib.SHA1_Final ctx).2⟩) ∧
      RDigester.update lib (⟨.Sha1, (lib.SHA1_Final ctx).2⟩ : RDigester w) data =
        ⟨.Sha1, lib.SHA1_Update (lib.SHA1_Final ctx).2 data⟩) ∧
    (∀ ctx : SHA256_CTX,
      RDigester.finalChecksumHex lib (⟨.Sha256, ctx⟩ : RDigester w) =
        some (hexString (lib.SHA256_Final ctx).1.val, ⟨.Sha256, (lib.SHA256_Final ctx).2⟩) ∧
      RDigester.update lib (⟨.Sha256, (lib.SHA256_Final ctx).2⟩ : RDigester w) data =
        ⟨.Sha256, lib.SHA256_Update (lib.SHA256_Final ctx).2 data⟩) ∧
    (∀ ctx : SHA512_CTX w,
      RDigester.finalChecksumHex lib (⟨.Sha512, ctx⟩ : RDigester w) =
        some (hexString (lib.SHA512_Final ctx).1.val, ⟨.Sha512, (lib.SHA512_Final ctx).2⟩) ∧
      RDigester.update lib (⟨.Sha512, (lib.SHA512_Final ctx).2⟩ : RDigester w) data =
        ⟨.Sha512, lib.SHA512_Update (lib.SHA512_Final ctx).2 data⟩) ∧
    ∃ rv e', e.finalChecksumHex lib = some (rv, e') ∧ e'.alg = e.alg ∧
      (∃ buf, e'.serialize dst dstSize = some (e', buf, requiredSize w e.alg) ∧
        buf.take (requiredSize w e.alg) = e'.stateBytes) ∧
      requiredSize w e.alg ≠ size_t_of (-1) ∧
      (∃ rv2 e2, e'.finalChecksumHex lib = some (rv2, e2) ∧
        rv2 = hexString (e'.digest lib) ∧ rv2.length = 2 * digestLength e.alg) := by
  have hmd5 : ∀ ctx : MD5_CTX, RDigester.finalChecksumHex lib (⟨.Md5, ctx⟩ : RDigester w) =
      some (hexString (lib.MD5_Final ctx).1.val, ⟨.Md5, (lib.MD5_Final ctx).2⟩) := by
    intro ctx
    simp only [RDigester.finalChecksumHex]
    rw [toHex_bytes _ (by decide)]; rfl
  have hsha1 : ∀ ctx : SHA_CTX, RDigester.finalChecksumHex lib (⟨.Sha1, ctx⟩ : RDigester w) =
      some (hexString (lib.SHA1_Final ctx).1.val, ⟨.Sha1, (lib.SHA1_Final ctx).2⟩) := by
    intro ctx
    simp only [RDigester.finalChecksumHex]
    rw [toHex_bytes _ (by decide)]; rfl
  have hsha256 : ∀ ctx : SHA256_CTX,
      RDigester.finalChecksumHex lib (⟨.Sha256, ctx⟩ : RDigester w) =
      some (hexString (lib.SHA256_Final ctx).1.val, ⟨.Sha256, (lib.SHA256_Final ctx).2⟩) := by
    intro ctx
    simp only [RDigester.finalChecksumHex]
    rw [toHex_bytes _ (by decide)]; rfl
  have hsha512 : ∀ ctx : SHA512_CTX w,
      RDigester.finalChecksumHex lib (⟨.Sha512, ctx⟩ : RDigester w) =
      some (hexString (lib.SHA512_Final ctx).1.val, ⟨.Sha512, (lib.SHA512_Final ctx).2⟩) := by
    intro ctx
    simp only [RDigester.finalChecksumHex]
    rw [toHex_bytes _ (by decide)]; rfl
  refine ⟨fun ctx => ⟨hmd5 ctx, rfl⟩, fun ctx => ⟨hsha1 ctx, rfl⟩,
    fun ctx => ⟨hsha256 ctx, rfl⟩, fun ctx => ⟨hsha512 ctx, rfl⟩, ?_⟩
  have hgen : ∀ e' : RDigester w, e'.alg = e.alg →
      (∃ buf, e'.serialize dst dstSize = some (e', buf, requiredSize w e.alg) ∧
        buf.take (requiredSize w e.alg) = e'.stateBytes) ∧
      requiredSize w e.alg ≠ size_t_of (-1) ∧
      (∃ rv2 e2, e'.finalChecksumHex lib = some (rv2, e2) ∧
        rv2 = hexString (e'.digest lib) ∧ rv2.length = 2 * digestLength e.alg) := by
    intro e' ha
    refine ⟨?_, requiredSize_ne_failure w e.alg, ?_⟩
    · have hs := serialize_of_ge e' dst dstSize (by rw [ha]; exact h1) h2
      rw [ha] at hs
      refine ⟨_, hs, ?_⟩
      exact List.take_left' (by rw [stateBytes_length, ha])
    · have hfst := finalChecksumHex_fst lib e'
      cases hfin : e'.finalChecksumHex lib with
      | none => rw [hfin] at hfst; cases hfst
      | some r =>
        rw [hfin] at hfst
        have hr : r.1 = hexString (e'.digest lib) := Option.some.inj hfst
        exact ⟨r.1, r.2, rfl, hr, by rw [hr, hexString_length, digest_length, ha]⟩
  obtain ⟨alg, ctx⟩ := e
  cases alg
  · exact ⟨_, _, hmd5 ctx, rfl, hgen _ rfl⟩
  · exact ⟨_, _, hsha1 ctx, rfl, hgen _ rfl⟩
  · exact ⟨_, _, hsha256 ctx, rfl, hgen _ rfl⟩
  · exact ⟨_, _, hsha512 ctx, rfl, hgen _ rfl⟩
  · exact ⟨_, _, rfl, rfl, hgen _ rfl⟩

/-- C11, amended, at an MD5 engine of the small library, data `9` and a buffer of 100
bytes: the general part. -/
theorem finalize_not_terminal_witness :
    ∃ rv e', (⟨.Md5, md5Sample⟩ : RDigester 8).finalChecksumHex (toyLib 8) = some (rv, e') ∧
      e'.alg = .Md5 ∧
      (∃ buf, e'.serialize (List.replicate 100 0) 100 = some (e', buf, requiredSize 8 .Md5) ∧
        buf.take (requiredSize 8 .Md5) = e'.stateBytes) ∧
      requiredSize 8 .Md5 ≠ size_t_of (-1) ∧
      (∃ rv2 e2, e'.finalChecksumHex (toyLib 8) = some (rv2, e2) ∧
        rv2 = hexString (e'.digest (toyLib 8)) ∧ rv2.length = 2 * digestLength .Md5) :=
  (finalize_not_terminal (toyLib 8) (⟨.Md5, md5Sample⟩ : RDigester 8) [9]
    (List.replicate 100 0) 100 (by decide) (by rw [List.length_replicate])).2.2.2.2

/-- C12 as stated fails: construction with a tag outside the four succeeds, fresh and from
a buffer, and the engine it yields has no state: `update` leaves it as it is, `serialize`
zeroes the buffer and returns 0, `finalChecksumHex` returns the empty string. -/
theorem unsupported_alg_counterexample :
    (RDigester.newSerialized .Other [] : Option (RDigester 8)).isSome = true ∧
    (RDigester.new (toyLib 8) .Other ()).stateBytes = [] ∧
    ((RDigester.new (toyLib 8) .Other ()).update (toyLib 8) [1, 2, 3]).stateBytes = [] ∧
    ((RDigester.new (toyLib 8) .Other ()).serialize [1, 2, 3] 3).map (fun r => r.2) =
      some ([0, 0, 0], 0) ∧
    ((RDigester.new (toyLib 8) .Other ()).finalChecksumHex (toyLib 8)).map Prod.fst =
      some [] := by
  refine ⟨rfl, rfl, rfl, ?_, rfl⟩
  rw [serialize_of_ge _ _ _ (by decide) (by decide)]
  rfl

/-- C12, amended: construction with a tag that is not one of MD5, SHA-1, SHA-256, SHA-512
does not fail, neither fresh nor from a serialized state (which is not read).  It yields an
engine with no underlying state, whose `update` does nothing, whose `serialize` zeroes the
first `dstSize` bytes of the buffer and returns 0, and whose `finalChecksumHex` returns the
empty string. -/
theorem unsupported_alg_noop_engine {w : Nat} (lib : CryptoLib w) (mem : CtxOf w .Other)
    (ctxSerialized data dst : List Byte) (dstSize : Nat) (h : dstSize ≤ dst.length) :
    RDigester.new lib .Other mem = ⟨.Other, ()⟩ ∧
    RDigester.newSerialized .Other ctxSerialized = some (⟨.Other, ()⟩ : RDigester w) ∧
    RDigester.update lib (⟨.Other, ()⟩ : RDigester w) data = ⟨.Other, ()⟩ ∧
    RDigester.serialize (⟨.Other, ()⟩ : RDigester w) dst dstSize =
      some (⟨.Other, ()⟩, List.replicate dstSize 0 ++ dst.drop dstSize, 0) ∧
    RDigester.finalChecksumHex lib (⟨.Other, ()⟩ : RDigester w) =
      some ([], ⟨.Other, ()⟩) := by
  refine ⟨rfl, rfl, rfl, ?_, rfl⟩
  simp only [RDigester.serialize, sizeof_uchar, Nat.one_mul, memset_eq _ _ _ h,
    Option.bind_eq_bind, Option.some_bind]

/-- C12, amended, for the small library and the buffer `1 2 3 4` with capacity 3. -/
theorem unsupported_alg_noop_engine_witness :
    RDigester.new (toyLib 8) .Other () = ⟨.Other, ()⟩ ∧
    RDigester.newSerialized .Other [5, 6] = some (⟨.Other, ()⟩ : RDigester 8) ∧
    RDigester.update (toyLib 8) (⟨.Other, ()⟩ : RDigester 8) [7] = ⟨.Other, ()⟩ ∧
    RDigester.serialize (⟨.Other, ()⟩ : RDigester 8) [1, 2, 3, 4] 3 =
      some (⟨.Other, ()⟩, List.replicate 3 0 ++ ([1, 2, 3, 4] : List Byte).drop 3, 0) ∧
    RDigester.finalChecksumHex (toyLib 8) (⟨.Other, ()⟩ : RDigester 8) =
      some ([], ⟨.Other, ()⟩) :=
  unsupported_alg_noop_engine (toyLib 8) () [5, 6] [7] [1, 2, 3, 4] 3 (by decide)

/-- C13: for each algorithm the state restored from a buffer depends on the first `N` bytes
of the buffer only, `N` being the algorithm's required size: two buffers with the same
first `N` bytes, whatever follows and however long they are, deserialize alike; a buffer of
`N` bytes or more deserializes to a state, so no byte at index `N` or beyond is read. -/
theorem deserialize_reads_prefix {w : Nat} (b b' : List Byte) :
    (b.take 92 = b'.take 92 → deserializeMd5Ctx b = deserializeMd5Ctx b') ∧
    (b.take 96 = b'.take 96 → deserializeSha1Ctx b = deserializeSha1Ctx b') ∧
    (b.take 112 = b'.take 112 → deserializeSha256Ctx b = deserializeSha256Ctx b') ∧
    (b.take (328 + 2 * w) = b'.take (328 + 2 * w) →
      deserializeSha512Ctx w b = deserializeSha512Ctx w b') ∧
    (92 ≤ b.length → ∃ ctx, deserializeMd5Ctx b = some ctx ∧
      deserializeMd5Ctx (b.take 92) = some ctx) ∧
    (96 ≤ b.length → ∃ ctx, deserializeSha1Ctx b = some ctx ∧
      deserializeSha1Ctx (b.take 96) = some ctx) ∧
    (112 ≤ b.length → ∃ ctx, deserializeSha256Ctx b = some ctx ∧
      deserializeSha256Ctx (b.take 112) = some ctx) ∧
    (328 + 2 * w ≤ b.length → ∃ ctx, deserializeSha512Ctx w b = some ctx ∧
      deserializeSha512Ctx w (b.take (328 + 2 * w)) = some ctx) := by
  refine ⟨?_, ?_, ?_, ?_, ?_, ?_, ?_, ?_⟩
  · intro h
    rw [← deserializeMd5Ctx_take b, h, deserializeMd5Ctx_take]
  · intro h
    rw [← deserializeSha1Ctx_take b, h, deserializeSha1Ctx_take]
  · intro h
    rw [← deserializeSha256Ctx_take b, h, deserializeSha256Ctx_take]
  · intro h
    rw [← deserializeSha512Ctx_take b, h, deserializeSha512Ctx_take]
  · intro hb
    obtain ⟨x0, x1, x2, x3, x4, x5, x6, x7, tl, e, -⟩ := md5_buffer_split b hb
    refine ⟨⟨x0, x1, x2, x3, x4, x5, x6, x7⟩, ?_, ?_⟩
    · rw [e]; exact deserializeMd5Ctx_eq _ _ _ _ _ _ _ _ _
    · rw [deserializeMd5Ctx_take, e]; exact deserializeMd5Ctx_eq _ _ _ _ _ _ _ _ _
  · intro hb
    obtain ⟨x0, x1, x2, x3, x4, x5, x6, x7, x8, tl, e, -⟩ := sha1_buffer_split b hb
    refine ⟨⟨x0, x1, x2, x3, x4, x5, x6, x7, x8⟩, ?_, ?_⟩
    · rw [e]; exact deserializeSha1Ctx_eq _ _ _ _ _ _ _ _ _ _
    · rw [deserializeSha1Ctx_take, e]; exact deserializeSha1Ctx_eq _ _ _ _ _ _ _ _ _ _
  · intro hb
    obtain ⟨x0, x1, x2, x3, x4, x5, tl, e, -⟩ := sha256_buffer_split b hb
    refine ⟨⟨x0, x1, x2, x3, x4, x5⟩, ?_, ?_⟩
    · rw [e]; exact deserializeSha256Ctx_eq _ _ _ _ _ _ _
    · rw [deserializeSha256Ctx_take, e]; exact deserializeSha256Ctx_eq _ _ _ _ _ _ _
  · intro hb
    obtain ⟨h, nl, nh, d, p, num, md, tl, e, -⟩ := sha512_buffer_split b hb
    refine ⟨⟨h, nl, nh, p, num, md⟩, ?_, ?_⟩
    · rw [e]; exact deserializeSha512Ctx_eq _ _ _ _ _ _ _ _
    · rw [deserializeSha512Ctx_take, e]; exact deserializeSha512Ctx_eq _ _ _ _ _ _ _ _

/-- C14: for every SHA-512 state and enough capacity, the two 128-byte block-buffer regions
`serialize` writes one after the other both hold the bytes of the union `u`, so they are
identical. -/
theorem sha512_block_regions_identical {w : Nat} (dst : List Byte) (dstSize : Nat)
    (ctx : SHA512_CTX w) (h1 : 328 + 2 * w ≤ dstSize) (h2 : dstSize ≤ dst.length) :
    ∃ buf, serializeSha512Ctx dst dstSize ctx = some (buf, 328 + 2 * w) ∧
      (buf.drop (64 + w + w)).take 128 = ctx.u.val ∧
      (buf.drop (64 + w + w + 128)).take 128 = ctx.u.val ∧
      (buf.drop (64 + w + w)).take 128 = (buf.drop (64 + w + w + 128)).take 128 := by
  have t1 := take_drop_at (ctx.h.val ++ ctx.Nl.val ++ ctx.Nh.val) ctx.u.val
    (ctx.u.val ++ (ctx.num.val ++ (ctx.md_len.val ++ dst.drop (328 + 2 * w)))) (64 + w + w) 128
    (by simp only [List.length_append, Bytes.length_val]) (Bytes.length_val _)
  have t2 := take_drop_at (ctx.h.val ++ ctx.Nl.val ++ ctx.Nh.val ++ ctx.u.val) ctx.u.val
    (ctx.num.val ++ (ctx.md_len.val ++ dst.drop (328 + 2 * w))) (64 + w + w + 128) 128
    (by simp only [List.length_append, Bytes.length_val]) (Bytes.length_val _)
  simp only [List.append_assoc] at t1 t2
  exact ⟨_, serializeSha512Ctx_eq dst dstSize ctx h1 h2, t1, t2, by rw [t1, t2]⟩

/-- C14 at the SHA-512 sample context and a buffer of 400 bytes. -/
theorem sha512_block_regions_identical_witness :
    ∃ buf, serializeSha512Ctx (List.replicate 400 7) 400 sha512Sample =
        some (buf, 328 + 2 * 8) ∧
      (buf.drop (64 + 8 + 8)).take 128 = sha512Sample.u.val ∧
      (buf.drop (64 + 8 + 8 + 128)).take 128 = sha512Sample.u.val ∧
      (buf.drop (64 + 8 + 8)).take 128 = (buf.drop (64 + 8 + 8 + 128)).take 128 :=
  sha512_block_regions_identical (List.replicate 400 7) 400 sha512Sample (by decide)
    (by rw [List.length_replicate])

/-- C15: for MD5, SHA-1 and SHA-256 and every buffer `b` of exactly the required size `N`,
deserializing `b` gives a state whose serialization into a buffer of `N` bytes is `b` again;
with the state round trip, serialization and deserialization are inverse bijections between
states and buffers of `N` bytes. -/
theorem deserialize_serialize_roundtrip (b dst : List Byte) :
    (b.length = 92 → ∃ ctx, deserializeMd5Ctx b = some ctx ∧ ctx.bytes = b ∧
      (dst.length = 92 → serializeMd5Ctx dst 92 ctx = some (b, 92))) ∧
    (b.length = 96 → ∃ ctx, deserializeSha1Ctx b = some ctx ∧ ctx.bytes = b ∧
      (dst.length = 96 → serializeSha1Ctx dst 96 ctx = some (b, 96))) ∧
    (b.length = 112 → ∃ ctx, deserializeSha256Ctx b = some ctx ∧ ctx.bytes = b ∧
      (dst.length = 112 → serializeSha256Ctx dst 112 ctx = some (b, 112))) ∧
    (∀ ctx : MD5_CTX, ctx.bytes.length = 92 ∧ deserializeMd5Ctx ctx.bytes = some ctx) ∧
    (∀ ctx : SHA_CTX, ctx.bytes.length = 96 ∧ deserializeSha1Ctx ctx.bytes = some ctx) ∧
    (∀ ctx : SHA256_CTX, ctx.bytes.length = 112 ∧
      deserializeSha256Ctx ctx.bytes = some ctx) := by
  refine ⟨?_, ?_, ?_, ?_, ?_, ?_⟩
  · intro hb
    obtain ⟨x0, x1, x2, x3, x4, x5, x6, x7, tl, e, ht⟩ := md5_buffer_split b (by omega)
    have ht' : tl = [] := by rw [ht]; exact List.drop_eq_nil_of_le (by omega)
    subst ht'
    refine ⟨⟨x0, x1, x2, x3, x4, x5, x6, x7⟩, ?_, ?_, ?_⟩
    · rw [e]; exact deserializeMd5Ctx_eq _ _ _ _ _ _ _ _ _
    · rw [e]; simp only [MD5_CTX.bytes, List.append_nil]
    · intro hd
      rw [serializeMd5Ctx_eq dst 92 _ (le_refl _) (by omega),
        List.drop_eq_nil_of_le (by omega), e]
  · intro hb
    obtain ⟨x0, x1, x2, x3, x4, x5, x6, x7, x8, tl, e, ht⟩ := sha1_buffer_split b (by omega)
    have ht' : tl = [] := by rw [ht]; exact List.drop_eq_nil_of_le (by omega)
    subst ht'
    refine ⟨⟨x0, x1, x2, x3, x4, x5, x6, x7, x8⟩, ?_, ?_, ?_⟩
    · rw [e]; exact deserializeSha1Ctx_eq _ _ _ _ _ _ _ _ _ _
    · rw [e]; simp only [SHA_CTX.bytes, List.append_nil]
    · intro hd
      rw [serializeSha1Ctx_eq dst 96 _ (le_refl _) (by omega),
        List.drop_eq_nil_of_le (by omega), e]
  · intro hb
    obtain ⟨x0, x1, x2, x3, x4, x5, tl, e, ht⟩ := sha256_buffer_split b (by omega)
    have ht' : tl = [] := by rw [ht]; exact List.drop_eq_nil_of_le (by omega)
    subst ht'
    refine ⟨⟨x0, x1, x2, x3, x4, x5⟩, ?_, ?_, ?_⟩
    · rw [e]; exact deserializeSha256Ctx_eq _ _ _ _ _ _ _
    · rw [e]; simp only [SHA256_CTX.bytes, List.append_nil]
    · intro hd
      rw [serializeSha256Ctx_eq dst 112 _ (le_refl _) (by omega),
        List.drop_eq_nil_of_le (by omega), e]
  · intro ctx
    refine ⟨md5_bytes_length ctx, ?_⟩
    have t := deserializeMd5Ctx_eq ctx.A ctx.B ctx.C ctx.D ctx.Nl ctx.Nh ctx.data ctx.num []
    simpa only [MD5_CTX.bytes, List.append_nil] using t
  · intro ctx
    refine ⟨sha1_bytes_length ctx, ?_⟩
    have t := deserializeSha1Ctx_eq ctx.h0 ctx.h1 ctx.h2 ctx.h3 ctx.h4 ctx.Nl ctx.Nh ctx.data
      ctx.num []
    simpa only [SHA_CTX.bytes, List.append_nil] using t
  · intro ctx
    refine ⟨sha256_bytes_length ctx, ?_⟩
    have t := deserializeSha256Ctx_eq ctx.h ctx.Nl ctx.Nh ctx.data ctx.num ctx.md_len []
    simpa only [SHA256_CTX.bytes, List.append_nil] using t

/-- C17: for every engine, and so every supported algorithm, and every capacity `dstSize`
of the buffer that is at least the required size `N`, after the public `serialize` the
bytes `0 .. N-1` of the buffer hold the serialized state and the bytes `N .. dstSize-1` are
zero, whatever the buffer held before; the bytes from `dstSize` on are kept. -/
theorem serialize_zero_pads {w : Nat} (e : RDigester w) (dst : List Byte) (dstSize : Nat)
    (h1 : requiredSize w e.alg ≤ dstSize) (h2 : dstSize ≤ dst.length) :
    ∃ buf, e.serialize dst dstSize = some (e, buf, requiredSize w e.alg) ∧
      buf.length = dst.length ∧
      buf.take (requiredSize w e.alg) = e.stateBytes ∧
      (∀ i, requiredSize w e.alg ≤ i → i < dstSize → buf[i]? = some 0) ∧
      buf.take dstSize = e.stateBytes ++ List.replicate (dstSize - requiredSize w e.alg) 0 ∧
      buf.drop dstSize = dst.drop dstSize := by
  have hl := stateBytes_length e
  have hl2 : (e.stateBytes ++ List.replicate (dstSize - requiredSize w e.alg) (0 : Byte)).length
      = dstSize := by
    rw [List.length_append, hl, List.length_replicate]; omega
  refine ⟨_, serialize_of_ge e dst dstSize h1 h2, ?_, ?_, ?_, ?_, ?_⟩
  · simp only [List.length_append, hl, List.length_replicate, List.length_drop]; omega
  · exact List.take_left' hl
  · intro i hi1 hi2
    rw [List.getElem?_append_right (by rw [hl]; exact hi1),
      List.getElem?_append_left (by rw [List.length_replicate, hl]; omega),
      List.getElem?_replicate, if_pos (by rw [hl]; omega)]
  · rw [← List.append_assoc, List.take_left' hl2]
  · rw [← List.append_assoc, List.drop_left' hl2]

/-- C17 at a SHA-256 engine and a buffer of 130 bytes with capacity 120. -/
theorem serialize_zero_pads_witness :
    ∃ buf, (⟨.Sha256, sha256Sample⟩ : RDigester 8).serialize (List.replicate 130 7) 120 =
        some (⟨.Sha256, sha256Sample⟩, buf, requiredSize 8 .Sha256) ∧
      buf.length = (List.replicate 130 (7 : Byte)).length ∧
      buf.take (requiredSize 8 .Sha256) = (⟨.Sha256, sha256Sample⟩ : RDigester 8).stateBytes ∧
      (∀ i, requiredSize 8 .Sha256 ≤ i → i < 120 → buf[i]? = some 0) ∧
      buf.take 120 = (⟨.Sha256, sha256Sample⟩ : RDigester 8).stateBytes ++
        List.replicate (120 - requiredSize 8 .Sha256) 0 ∧
      buf.drop 120 = (List.replicate 130 (7 : Byte)).drop 120 :=
  serialize_zero_pads (⟨.Sha256, sha256Sample⟩ : RDigester 8) (List.replicate 130 7) 120
    (by decide) (by rw [List.length_replicate]; decide)

/-- C16: for SHA-512 the restored block buffer is the second 128-byte block region of the
buffer, and the first region has no effect: two buffers that differ inside the first region
only deserialize to the same state; when the two regions of `b` differ, a serialization of
the state deserialized from `b` differs from `b`. -/
theorem sha512_first_region_ignored {w : Nat} (b b' : List Byte)
    (hb : 328 + 2 * w ≤ b.length) (hb' : 328 + 2 * w ≤ b'.length)
    (hpre : b.take (64 + 2 * w) = b'.take (64 + 2 * w))
    (hpost : b.drop (192 + 2 * w) = b'.drop (192 + 2 * w)) :
    ∃ ctx, deserializeSha512Ctx w b = some ctx ∧ deserializeSha512Ctx w b' = some ctx ∧
      ctx.u.val = (b.drop (192 + 2 * w)).take 128 ∧
      ((b.drop (64 + 2 * w)).take 128 ≠ (b.drop (192 + 2 * w)).take 128 →
        ∀ (dst : List Byte) (dstSize : Nat), 328 + 2 * w ≤ dstSize → dstSize ≤ dst.length →
          ∃ buf, serializeSha512Ctx dst dstSize ctx = some (buf, 328 + 2 * w) ∧ buf ≠ b) := by
  obtain ⟨h, nl, nh, d, p, num, md, tl, e, -⟩ := sha512_buffer_split b hb
  have k1 : 64 + 2 * w = 64 + w + w := by omega
  have k2 : 192 + 2 * w = 64 + w + w + 128 := by omega
  rw [k1] at hpre
  rw [k2] at hpost
  rw [k1, k2]
  -- the regions of `b`
  have l3 : (h.val ++ nl.val ++ nh.val).length = 64 + w + w := by
    simp only [List.length_append, Bytes.length_val]
  have l4 : (h.val ++ nl.val ++ nh.val ++ d.val).length = 64 + w + w + 128 := by
    simp only [List.length_append, Bytes.length_val]
  have bt : b.take (64 + w + w) = h.val ++ nl.val ++ nh.val := by
    rw [e, ← List.append_assoc, ← List.append_assoc]
    exact List.take_left' l3
  have bd : b.drop (64 + w + w + 128) = p.val ++ (num.val ++ (md.val ++ tl)) := by
    rw [e, ← List.append_assoc, ← List.append_assoc, ← List.append_assoc]
    exact List.drop_left' l4
  have r1 : (b.drop (64 + w + w)).take 128 = d.val := by
    have t := take_drop_at (h.val ++ nl.val ++ nh.val) d.val
      (p.val ++ (num.val ++ (md.val ++ tl))) (64 + w + w) 128 l3 (Bytes.length_val _)
    simp only [List.append_assoc] at t
    rw [e]; exact t
  have r2 : (b.drop (64 + w + w + 128)).take 128 = p.val := by
    rw [bd]; exact List.take_left' (Bytes.length_val _)
  -- the other buffer has the same fields but for the first region
  have hd' : ((b'.drop (64 + w + w)).take 128).length = 128 := by
    rw [List.length_take, List.length_drop]; omega
  have e' : b' = h.val ++ (nl.val ++ (nh.val ++ ((b'.drop (64 + w + w)).take 128 ++
      (p.val ++ (num.val ++ (md.val ++ tl)))))) := by
    have s1 : b' = b'.take (64 + w + w) ++ ((b'.drop (64 + w + w)).take 128 ++
        b'.drop (64 + w + w + 128)) := by
      have s0 : (b'.drop (64 + w + w)).drop 128 = b'.drop (64 + w + w + 128) := by
        rw [List.drop_drop]
      rw [← s0, List.take_append_drop, List.take_append_drop]
    rw [← hpre, ← hpost, bt, bd] at s1
    simpa only [List.append_assoc] using s1
  have des : deserializeSha512Ctx w b = some ⟨h, nl, nh, p, num, md⟩ := by
    rw [e]; exact deserializeSha512Ctx_eq _ _ _ _ _ _ _ _
  have des' : deserializeSha512Ctx w b' = some ⟨h, nl, nh, p, num, md⟩ := by
    rw [e']
    exact deserializeSha512Ctx_eq h nl nh ⟨(b'.drop (64 + w + w)).take 128, hd'⟩ p num md tl
  refine ⟨⟨h, nl, nh, p, num, md⟩, des, des', r2.symm, ?_⟩
  intro hne dst dstSize hc1 hc2
  refine ⟨_, serializeSha512Ctx_eq dst dstSize _ hc1 hc2, ?_⟩
  intro hbuf
  apply hne
  have t := take_drop_at (h.val ++ nl.val ++ nh.val) p.val
    (p.val ++ (num.val ++ (md.val ++ dst.drop (328 + 2 * w)))) (64 + w + w) 128 l3
    (Bytes.length_val _)
  simp only [List.append_assoc] at t
  rw [r2, ← hbuf]
  exact t

/-- C16 with 8-byte counters: a buffer of 344 bytes that are 0 but for byte 80, which is 1,
and the buffer of 344 zero bytes. -/
theorem sha512_first_region_ignored_witness :
    ∃ ctx, deserializeSha512Ctx 8
        (List.replicate 80 0 ++ (1 : Byte) :: List.replicate 263 0) = some ctx ∧
      deserializeSha512Ctx 8 (List.replicate 344 0) = some ctx ∧
      ctx.u.val =
        ((List.replicate 80 0 ++ (1 : Byte) :: List.replicate 263 0).drop (192 + 2 * 8)).take
          128 ∧
      (((List.replicate 80 0 ++ (1 : Byte) :: List.replicate 263 0).drop (64 + 2 * 8)).take 128
          ≠ ((List.replicate 80 0 ++ (1 : Byte) :: List.replicate 263 0).drop
            (192 + 2 * 8)).take 128 →
        ∀ (dst : List Byte) (dstSize : Nat), 328 + 2 * 8 ≤ dstSize → dstSize ≤ dst.length →
          ∃ buf, serializeSha512Ctx dst dstSize ctx = some (buf, 328 + 2 * 8) ∧
            buf ≠ List.replicate 80 0 ++ (1 : Byte) :: List.replicate 263 0) :=
  sha512_first_region_ignored (List.replicate 80 0 ++ (1 : Byte) :: List.replicate 263 0)
    (List.replicate 344 0)
    (by rw [List.length_append, List.length_replicate, List.length_cons,
      List.length_replicate])
    (by rw [List.length_replicate]) (by rfl) (by rfl)

set_option maxRecDepth 100000 in
/-- C18, what the code does: the constructor zeroes `sizeof(MD5_CTX)`, 92, bytes of the
object of every algorithm.  That is the whole `MD5_CTX`; of a `SHA_CTX` it leaves `num`, of
a `SHA256_CTX` the bytes of `data` from 52 on, `num` and `md_len`, of a `SHA512_CTX` the
bytes of `u` beyond object offset 92, `num` and `md_len` as the allocator left them.  With
a `SHA512_Init` that does not assign `u`, byte 100 of the exported buffer of a fresh
SHA-512 engine is what the allocator left there. -/
theorem new_zeroes_md5_size_only {w : Nat} (lib : CryptoLib w) :
    sizeof_MD5_CTX = 92 ∧
    (∀ mem : MD5_CTX, RDigester.new lib .Md5 mem = ⟨.Md5, lib.MD5_Init MD5_CTX.zero⟩) ∧
    (∀ mem : SHA_CTX,
      RDigester.new lib .Sha1 mem = ⟨.Sha1, lib.SHA1_Init (mem.memset0 sizeof_MD5_CTX)⟩ ∧
      (mem.memset0 sizeof_MD5_CTX).num = mem.num) ∧
    (∀ mem : SHA256_CTX,
      RDigester.new lib .Sha256 mem =
        ⟨.Sha256, lib.SHA256_Init (mem.memset0 sizeof_MD5_CTX)⟩ ∧
      (mem.memset0 sizeof_MD5_CTX).data.val.drop 52 = mem.data.val.drop 52 ∧
      (mem.memset0 sizeof_MD5_CTX).num = mem.num ∧
      (mem.memset0 sizeof_MD5_CTX).md_len = mem.md_len) ∧
    (∀ mem : SHA512_CTX w,
      RDigester.new lib .Sha512 mem =
        ⟨.Sha512, lib.SHA512_Init (mem.memset0 sizeof_MD5_CTX)⟩ ∧
      (mem.memset0 sizeof_MD5_CTX).u.val.drop (92 - (64 + w + w)) =
        mem.u.val.drop (92 - (64 + w + w)) ∧
      (mem.memset0 sizeof_MD5_CTX).num = mem.num ∧
      (mem.memset0 sizeof_MD5_CTX).md_len = mem.md_len) ∧
    ((RDigester.new (keepLib 8) .Sha512 (SHA512_CTX.fill 8 0)).serialize
        (List.replicate 344 0) 344).map (fun r => r.2.1[100]?) = some (some 0) ∧
    ((RDigester.new (keepLib 8) .Sha512 (SHA512_CTX.fill 8 255)).serialize
        (List.replicate 344 0) 344).map (fun r => r.2.1[100]?) = some (some 255) := by
  have hs : sizeof_MD5_CTX = 92 := rfl
  refine ⟨hs, ?_, ?_, ?_, ?_, ?_, ?_⟩
  · intro mem
    have hz : mem.memset0 sizeof_MD5_CTX = MD5_CTX.zero := by
      simp only [MD5_CTX.memset0, MD5_CTX.zero, hs]
      rw [memset0_all _ _ _ (by omega), memset0_all _ _ _ (by omega),
        memset0_all _ _ _ (by omega), memset0_all _ _ _ (by omega),
        memset0_all _ _ _ (by omega), memset0_all _ _ _ (by omega),
        memset0_all _ _ _ (by omega), memset0_all _ _ _ (by omega)]
    simp only [RDigester.new, hz]
  · intro mem
    exact ⟨rfl, memset0_none _ _ _ (by rw [hs])⟩
  · intro mem
    exact ⟨rfl, memset0_drop mem.data 40 92, memset0_none _ _ _ (by rw [hs]; omega),
      memset0_none _ _ _ (by rw [hs]; omega)⟩
  · intro mem
    exact ⟨rfl, memset0_drop mem.u (64 + w + w) 92, memset0_none _ _ _ (by rw [hs]; omega),
      memset0_none _ _ _ (by rw [hs]; omega)⟩
  · rw [serialize_of_ge _ _ _ (by decide) (by rw [List.length_replicate])]
    rfl
  · rw [serialize_of_ge _ _ _ (by decide) (by rw [List.length_replicate])]
    rfl

end Digest
